import Mathlib

/-!
# StandLog analytics script — verification of the core state machines

Shallow embedding of the StandLog browser analytics script
(`js/modules/funnels/funnel.js`, `js/modules/personas/personas.js`,
`js/modules/tracking/core.js` and the main `StandLogAnalytics` script),
restricted to the pure state transitions the specification's claims are
about: funnel step matching, persona rule evaluation and segment
membership, and the event delivery queue.

Conventions of the embedding:
* JS numbers that only ever hold integral millisecond timestamps or
  counters are modelled as `Int`/`Nat`; JS divisions (conversion rates,
  averages, confidence scores) are modelled as `Rat`.  `Rat` division by
  zero yields `0` where JS yields `Infinity`/`NaN`; none of the theorems
  below inspect a value produced by a division whose divisor can be zero,
  except where explicitly guarded the way the source guards it.
* JS `Map`s are association lists (`lookupA`/`insertA`, `Map.set`
  replacing the first binding of the key), JS `Set`s are duplicate-free
  lists in insertion order (`setAdd`/`setDelete`).
* Code that can throw is modelled in `Except String`; a `.error` value
  marks the place where the JS would raise.  Code wrapped in `try/catch`
  in the source is total here, with the catch branch made explicit.
-/

/-! ## Generic helpers: JS Map / Set / string operations -/

/-- Replace the element at index `i` (no-op when out of range),
mirroring a JS in-place `arr[i] = f(arr[i])`. -/
def modifyAt {α : Type} : List α → Nat → (α → α) → List α
  | [], _, _ => []
  | a :: t, 0, f => f a :: t
  | a :: t, i + 1, f => a :: modifyAt t i f

/-- JS `Map.get`: first binding of the key, if any. -/
def lookupA {α : Type} : List (String × α) → String → Option α
  | [], _ => none
  | (k, v) :: t, key => if k = key then some v else lookupA t key

/-- JS `Map.set`: replace the first binding of the key, else append. -/
def insertA {α : Type} : List (String × α) → String → α → List (String × α)
  | [], key, v => [(key, v)]
  | (k, w) :: t, key, v =>
    if k = key then (key, v) :: t else (k, w) :: insertA t key v

/-- JS `Set.add`: append the element when it is not yet present. -/
def setAdd (l : List String) (x : String) : List String :=
  if x ∈ l then l else l ++ [x]

/-- JS `Set.delete`: remove the element. -/
def setDelete (l : List String) (x : String) : List String :=
  l.filter (fun y => y ≠ x)

/-- JS `String.prototype.includes` on the underlying character lists. -/
def listIncludes (hay needle : List Char) : Bool :=
  needle.isPrefixOf hay ||
    match hay with
    | [] => false
    | _ :: t => listIncludes t needle

/-- JS `String.prototype.includes`. -/
def strIncludes (hay needle : String) : Bool :=
  listIncludes hay.toList needle.toList

/-- JS `String.prototype.replace` with a plain-string pattern:
replace the first occurrence of `pat` by `rep`. -/
def replaceFirstL (s pat rep : List Char) : List Char :=
  match s with
  | [] => []
  | c :: t =>
    if pat.isPrefixOf (c :: t) then rep ++ (c :: t).drop pat.length
    else c :: replaceFirstL t pat rep

/-- JS `String.prototype.replace` with a plain-string pattern. -/
def replaceFirst (s pat rep : String) : String :=
  ⟨replaceFirstL s.toList pat.toList rep.toList⟩

/-- Truthiness of a possibly-absent JS string (`undefined` and `""` are
falsy). -/
def jsTruthyStr : Option String → Bool
  | none => false
  | some s => !s.isEmpty

/-! ## A small model of JS `RegExp` construction and `test`

`urlMatches` in `funnel.js` compiles `stepUrl.replace(/\*/g, ".*")` with
`new RegExp(pattern)` and calls `.test(eventUrl)`; the constructor throws
a `SyntaxError` on a malformed pattern (e.g. an unterminated character
class).  We model the fragment of the JS regex language such patterns
live in: literal characters, `.`, postfix `*`, `\`-escapes and `[...]`
character classes.  `parseRegex` returns `.error` exactly where the JS
constructor would throw for this fragment (unterminated class, dangling
escape, `*` with nothing to repeat). -/

inductive RAtom : Type
  | ch (c : Char)
  | dot
  | cls (cs : List Char)
deriving Repr, DecidableEq

inductive RElem : Type
  | atom (a : RAtom)
  | star (a : RAtom)
deriving Repr, DecidableEq

/-- Split a `[...]` character class body at its closing `]`:
the class characters and the remainder.  `none` when `]` is missing. -/
def splitClass (l : List Char) : Option (List Char × List Char) :=
  if ']' ∈ l then
    some (l.takeWhile (fun c => c ≠ ']'), (l.dropWhile (fun c => c ≠ ']')).tail)
  else none

/-- Parse the pattern fragment described above; a postfix `*` applies to
the atom just before it. -/
def parseRegex : List Char → Except String (List RElem)
  | [] => .ok []
  | '*' :: _ => .error "SyntaxError: nothing to repeat"
  | '\\' :: [] => .error "SyntaxError: pattern ends with a backslash"
  | '\\' :: c :: '*' :: rest => (parseRegex rest).map (RElem.star (.ch c) :: ·)
  | '\\' :: c :: rest => (parseRegex rest).map (RElem.atom (.ch c) :: ·)
  | '[' :: rest =>
    match h : splitClass rest with
    | none => .error "SyntaxError: unterminated character class"
    | some (cs, '*' :: rest') => (parseRegex rest').map (RElem.star (.cls cs) :: ·)
    | some (cs, rest') => (parseRegex rest').map (RElem.atom (.cls cs) :: ·)
  | '.' :: '*' :: rest => (parseRegex rest).map (RElem.star .dot :: ·)
  | '.' :: rest => (parseRegex rest).map (RElem.atom .dot :: ·)
  | c :: '*' :: rest => (parseRegex rest).map (RElem.star (.ch c) :: ·)
  | c :: rest => (parseRegex rest).map (RElem.atom (.ch c) :: ·)
termination_by l => l.length
decreasing_by
  all_goals simp_wf
  all_goals try omega
  all_goals
    simp only [splitClass] at h
    split at h
    case isTrue hmem =>
      have hd : (List.dropWhile (fun c => c ≠ ']') rest).length ≤ rest.length :=
        ((List.dropWhile_suffix _).sublist).length_le
      cases hdw : List.dropWhile (fun c => c ≠ ']') rest with
      | nil => rw [hdw] at h; simp_all
      | cons d ds =>
        rw [hdw] at h
        simp only [Option.some.injEq, Prod.mk.injEq, List.tail_cons] at h
        rw [hdw] at hd
        simp only [List.length_cons] at hd
        first
        | (obtain ⟨_, h2⟩ := h
           have : ds.length = rest'.length + 1 := by rw [h2]; simp
           omega)
        | (obtain ⟨_, h2⟩ := h
           have : ds.length = rest'.length := by rw [h2]
           omega)
    case isFalse => exact absurd h (by simp)

/-- Does the atom match one character? -/
def atomMatch : RAtom → Char → Bool
  | .ch c, c' => c = c'
  | .dot, _ => true
  | .cls cs, c' => cs.contains c'

/-- Match a regex against a prefix of the character list. -/
def matchHere : List RElem → List Char → Bool
  | [], _ => true
  | .atom _ :: _, [] => false
  | .atom a :: re, c :: cs => atomMatch a c && matchHere re cs
  | .star a :: re, cs =>
    matchHere re cs ||
      match cs with
      | [] => false
      | c :: cs' => atomMatch a c && matchHere (.star a :: re) cs'
termination_by re cs => (cs.length, re.length)

/-- JS `RegExp.prototype.test`: unanchored search. -/
def regexTest (re : List RElem) (s : String) : Bool :=
  go s.toList
where
  go : List Char → Bool
    | [] => matchHere re []
    | c :: cs => matchHere re (c :: cs) || go cs

/-! ## Funnel module (`js/modules/funnels/funnel.js`) -/

/-- The element descriptor attached to click events
(`getElementInfo`). -/
structure ElementInfo : Type where
  tagName : String
  id : String
  className : String
deriving Repr, DecidableEq

/-- An event as seen by `FunnelAnalyzer.addEvent`: the union of the
fields the funnel matcher reads.  Absent JS fields are `none`. -/
structure FEvent : Type where
  type : String
  url : Option String := none
  name : Option String := none
  element : Option ElementInfo := none
  timestamp : Int := 0
  sessionId : String := ""
deriving Repr, DecidableEq

/-- A funnel step (`defineFunnel` normalization): optional URL pattern,
event name and selector. -/
structure Step : Type where
  url : Option String := none
  event : Option String := none
  selector : Option String := none
deriving Repr, DecidableEq

structure FunnelOptions : Type where
  allowBacktrack : Bool := false
deriving Repr, DecidableEq

structure Funnel : Type where
  steps : List Step
  options : FunnelOptions
deriving Repr, DecidableEq

/-- `urlMatches(eventUrl, stepUrl)`: wildcard patterns go through
`RegExp`, whose construction can throw; plain patterns are substring
tests. -/
def urlMatches (eventUrl stepUrl : String) : Except String Bool :=
  if strIncludes stepUrl "*" then do
    let pattern := ⟨(stepUrl.toList.map fun c =>
      if c = '*' then ['.', '*'] else [c]).flatten⟩
    let re ← parseRegex (String.toList pattern)
    .ok (regexTest re eventUrl)
  else
    .ok (strIncludes eventUrl stepUrl)

/-- The body of `elementMatchesSelector`'s `try` block; reading a field
of an absent element is the JS `TypeError`. -/
def elementMatchesSelectorBody (element : Option ElementInfo)
    (selector : String) : Except String Bool :=
  match element with
  | none => .error "TypeError: element is undefined"
  | some el =>
    .ok (el.id = replaceFirst selector "#" "" ||
      strIncludes el.className (replaceFirst selector "." "") ||
      el.tagName.toLower = selector.toLower)

/-- `elementMatchesSelector`: the `catch` branch returns `false`. -/
def elementMatchesSelector (element : Option ElementInfo)
    (selector : String) : Bool :=
  match elementMatchesSelectorBody element selector with
  | .ok b => b
  | .error _ => false

/-- `eventMatchesStep(event, step)`.  The URL branch returns the
`urlMatches` verdict outright when it applies; otherwise control falls
through to the event-name and selector branches. -/
def eventMatchesStep (event : FEvent) (step : Step) : Except String Bool :=
  if jsTruthyStr step.url && (event.type = "pageview" : Bool)
      && jsTruthyStr event.url then
    urlMatches (event.url.getD "") (step.url.getD "")
  else if jsTruthyStr step.event && (event.type = "custom" : Bool)
      && (event.name = step.event : Bool) then
    .ok true
  else if jsTruthyStr step.event && (some event.type = step.event : Bool) then
    .ok true
  else if jsTruthyStr step.selector && (event.type = "click" : Bool) then
    .ok (elementMatchesSelector event.element (step.selector.getD ""))
  else
    .ok false

/-- A completion record appended by `processStepCompletion`
(the full triggering event is also stored in the source; its identity is
captured by the timestamp here). -/
structure CompletedStep : Type where
  stepIndex : Nat
  timestamp : Int
deriving Repr, DecidableEq

/-- Per-(funnel, session) state created lazily by `checkFunnelStep`. -/
structure FSession : Type where
  userId : String
  startTime : Int
  currentStep : Int
  completedSteps : List CompletedStep
  events : List FEvent
  status : String
deriving Repr, DecidableEq

/-- The fresh session record `checkFunnelStep` creates on first
contact. -/
def newFSession (event : FEvent) : FSession :=
  { userId := "", startTime := event.timestamp, currentStep := -1,
    completedSteps := [], events := [], status := "active" }

/-- Per-step statistics (`initializeFunnelStats` shape). -/
structure StepStats : Type where
  stepIndex : Nat
  reached : Nat
  dropped : Nat
  conversionFromPrevious : Rat
deriving Repr, DecidableEq

structure FunnelStats : Type where
  totalSessions : Nat
  completedSessions : Nat
  conversionRate : Rat
  steps : List StepStats
deriving Repr, DecidableEq

/-- `initializeFunnelStats(stepCount)`. -/
def initFunnelStats (stepCount : Nat) : FunnelStats :=
  { totalSessions := 0, completedSessions := 0, conversionRate := 0,
    steps := (List.range stepCount).map fun i =>
      { stepIndex := i, reached := 0, dropped := 0,
        conversionFromPrevious := 0 } }

/-- The conversion-rate write
`steps[stepIndex].conversionFromPrevious = reached / prevReached * 100`
of `updateFunnelStats` (both cells are in range whenever the caller
invokes it). -/
def convFromPrev (steps1 : List StepStats) (stepIndex : Nat) :
    List StepStats :=
  match steps1.get? (stepIndex - 1), steps1.get? stepIndex with
  | some prev, some cur =>
    modifyAt steps1 stepIndex fun s =>
      { s with conversionFromPrevious :=
          ((cur.reached : Rat) / (prev.reached : Rat)) * 100 }
  | _, _ => steps1

/-- `updateFunnelStats(funnelId, session, stepIndex)` (the session
argument is unused by the source body).  `stepsLen` is
`funnelData.funnel.steps.length`.  Divisions are exact `Rat` divisions
where the source divides JS numbers. -/
def updateFunnelStats (stepsLen : Nat) (stats : FunnelStats)
    (stepIndex : Nat) : FunnelStats :=
  -- stats.steps[stepIndex].reached++
  let steps1 := modifyAt stats.steps stepIndex fun s =>
    { s with reached := s.reached + 1 }
  -- conversionFromPrevious = reached[i] / reached[i-1] * 100  (i > 0)
  let steps2 :=
    if 0 < stepIndex then convFromPrev steps1 stepIndex
    else steps1
  let stats := { stats with steps := steps2 }
  -- stepIndex === 0  →  totalSessions++
  let stats :=
    if stepIndex = 0 then
      { stats with totalSessions := stats.totalSessions + 1 }
    else stats
  -- stepIndex === steps.length - 1  →  completedSessions++, rate
  if (stepIndex : Int) = (stepsLen : Int) - 1 then
    let cs := stats.completedSessions + 1
    { stats with
        completedSessions := cs,
        conversionRate := ((cs : Rat) / (stats.totalSessions : Rat)) * 100 }
  else stats

/-- `processStepCompletion(funnel, session, stepIndex, event)`:
advance on the exactly-next step, regress when backtracking is allowed,
otherwise ignore. -/
def processStepCompletion (funnel : Funnel) (session : FSession)
    (stats : FunnelStats) (stepIndex : Nat) (event : FEvent) :
    FSession × FunnelStats :=
  let expectedStep := session.currentStep + 1
  if (stepIndex : Int) = expectedStep then
    let session := { session with
      currentStep := (stepIndex : Int),
      completedSteps := session.completedSteps ++
        [{ stepIndex := stepIndex, timestamp := event.timestamp }] }
    let stats := updateFunnelStats funnel.steps.length stats stepIndex
    let session :=
      if (stepIndex : Int) = (funnel.steps.length : Int) - 1 then
        { session with status := "completed" }
      else session
    (session, stats)
  else if funnel.options.allowBacktrack && (stepIndex : Int) < expectedStep then
    ({ session with currentStep := (stepIndex : Int) }, stats)
  else
    (session, stats)

/-- The `funnel.steps.forEach` loop of `checkFunnelStep`: try each step
in order against the event.  A thrown matcher error aborts the loop;
mutations already applied persist (`err` reports the abort). -/
def processSteps (funnel : Funnel) (steps : List (Nat × Step))
    (session : FSession) (stats : FunnelStats) (event : FEvent) :
    (FSession × FunnelStats) × Option String :=
  match steps with
  | [] => ((session, stats), none)
  | (i, st) :: rest =>
    match eventMatchesStep event st with
    | .error e => ((session, stats), some e)
    | .ok b =>
      let next :=
        if b then processStepCompletion funnel session stats i event
        else (session, stats)
      processSteps funnel rest next.1 next.2 event

/-- The per-funnel slice of `this.funnelData.get(funnelId)`. -/
structure FunnelData : Type where
  sessions : List (String × FSession)
  stats : FunnelStats
deriving Repr, DecidableEq

/-- `defineFunnel`'s fresh `funnelData` entry. -/
def initFunnelData (funnel : Funnel) : FunnelData :=
  { sessions := [], stats := initFunnelStats funnel.steps.length }

/-- `session.events.push(event)` of `checkFunnelStep`. -/
def pushEvent (s : FSession) (e : FEvent) : FSession :=
  { s with events := s.events ++ [e] }

/-- `checkFunnelStep(funnel, event)`: get or create the session record,
append the event, and run every step's matcher. -/
def checkFunnelStep (funnel : Funnel) (fd : FunnelData) (event : FEvent) :
    FunnelData × Option String :=
  let sessions :=
    match lookupA fd.sessions event.sessionId with
    | some _ => fd.sessions
    | none => insertA fd.sessions event.sessionId (newFSession event)
  let session := (lookupA sessions event.sessionId).getD (newFSession event)
  let session := pushEvent session event
  let r := processSteps funnel funnel.steps.enum session fd.stats event
  ({ sessions := insertA sessions event.sessionId r.1.1, stats := r.1.2 },
    r.2)

/-- One event through `addEvent`/`analyzeEvent` for a single funnel; an
exception thrown out of the listener is swallowed by the browser's event
loop, so the analyzer state simply keeps the mutations applied so far. -/
def runFunnelEvent (funnel : Funnel) (fd : FunnelData) (event : FEvent) :
    FunnelData :=
  (checkFunnelStep funnel fd event).1

/-- A whole event sequence through the analyzer. -/
def runFunnelEvents (funnel : Funnel) (fd : FunnelData)
    (events : List FEvent) : FunnelData :=
  events.foldl (runFunnelEvent funnel) fd

/-! ## Personas module (`js/modules/personas/personas.js`)

JS rule operands and metric values are modelled by `JSValue`.
`undefinedV` stands for JS `undefined` (out-of-range indexing, absent
fields); relational comparisons against it are false (NaN semantics).
Numeric-string coercion in relational operators and JS float printing of
non-integral numbers are not modelled; no rule of the script exercises
either. -/

inductive JSValue : Type
  | num (n : Rat)
  | str (s : String)
  | bool (b : Bool)
  | arr (l : List JSValue)
  | undefinedV

/-- JS `ToNumber` on the fragment we use (`none` = NaN). -/
def toNumber : JSValue → Option Rat
  | .num n => some n
  | .bool b => some (if b then 1 else 0)
  | _ => none

/-- JS `===`.  Arrays compare by reference; the script never compares
two arrays that could be the same object, so `false` is faithful. -/
def jsStrictEq : JSValue → JSValue → Bool
  | .num a, .num b => a = b
  | .str a, .str b => a = b
  | .bool a, .bool b => a = b
  | .undefinedV, .undefinedV => true
  | _, _ => false

/-- JS `<`: string-string is lexicographic, otherwise numeric with NaN
comparing false. -/
def jsLT : JSValue → JSValue → Bool
  | .str x, .str y => decide (x < y)
  | a, b =>
    match toNumber a, toNumber b with
    | some x, some y => decide (x < y)
    | _, _ => false

/-- JS `>`. -/
def jsGT (a b : JSValue) : Bool := jsLT b a

/-- JS `<=` (false when either side is NaN). -/
def jsLE : JSValue → JSValue → Bool
  | .str x, .str y => decide (x ≤ y)
  | a, b =>
    match toNumber a, toNumber b with
    | some x, some y => decide (x ≤ y)
    | _, _ => false

/-- JS `>=`. -/
def jsGE (a b : JSValue) : Bool := jsLE b a

/-- JS `ToString` on the fragment we use (nested arrays and non-integral
numbers are unused by the script's rule sets). -/
def jsToString : JSValue → String
  | .str s => s
  | .bool b => if b then "true" else "false"
  | .num n => if n.den = 1 then toString n.num else toString n
  | .arr _ => ""
  | .undefinedV => "undefined"

/-- `str[i]` in JS: a one-character string, or `undefined` out of
range. -/
def strCharAt (s : String) (i : Nat) : JSValue :=
  match s.toList.get? i with
  | some c => .str ⟨[c]⟩
  | none => .undefinedV

/-- An event as consumed by `PersonaAnalyzer.addUserEvent`.  `url` and
`referrer` stand for `event.page?.url || event.url` and
`event.page?.referrer`; `device` is the user-agent string of
`event.device` when present. -/
structure PEvent : Type where
  type : String
  timestamp : Int
  name : Option String := none
  url : Option String := none
  referrer : Option String := none
  device : Option String := none
deriving Repr, DecidableEq

/-- The per-session record of a user profile (`startNewSession` shape;
the random session id is not modelled). -/
structure PSession : Type where
  startTime : Int
  lastActivity : Int
  duration : Int
  pageViews : Nat
  clicks : Nat
  conversions : Nat
  formSubmissions : Nat
  events : List PEvent := []
  entryPage : Option String := none
  device : Option String := none
  referrer : Option String := none
deriving Repr, DecidableEq

/-- Cumulative user metrics (`createUserProfile` shape; the
`locations` histogram is never written by the source and is omitted). -/
structure UserMetrics : Type where
  totalSessions : Nat
  totalPageViews : Nat
  totalDuration : Int
  totalClicks : Nat
  conversionEvents : Nat
  deviceTypes : List (String × Nat)
  browsers : List (String × Nat)
  referrers : List (String × Nat)
  pages : List (String × Nat)
deriving Repr, DecidableEq

structure PersonaAssignment : Type where
  id : String
  assignedAt : Int
  confidence : Int
deriving Repr, DecidableEq

structure UserProfile : Type where
  id : String
  firstSeen : Int
  lastSeen : Int
  sessions : List PSession
  currentSession : Option PSession
  personas : List PersonaAssignment
  metrics : UserMetrics
  deriving Repr, DecidableEq

/-- A persona rule; `timeframe := none` models an absent JS field, for
which `getUserMetric`'s default `"all"` applies. -/
structure PRule : Type where
  metric : String
  op : String
  value : JSValue
  timeframe : Option String := none

/-- A persona definition (presentation fields `description`, `color`,
`icon`, `created` are omitted). -/
structure Persona : Type where
  id : String
  name : String := ""
  rules : List PRule

/-- `createUserProfile(userId)` (`now` is `Date.now()`). -/
def createUserProfile (userId : String) (now : Int) : UserProfile :=
  { id := userId, firstSeen := now, lastSeen := now, sessions := [],
    currentSession := none, personas := [],
    metrics := { totalSessions := 0, totalPageViews := 0, totalDuration := 0,
                 totalClicks := 0, conversionEvents := 0, deviceTypes := [],
                 browsers := [], referrers := [], pages := [] } }

/-- JS `obj[k] = (obj[k] || 0) + 1` on a histogram object. -/
def bumpCount (l : List (String × Nat)) (k : String) : List (String × Nat) :=
  match lookupA l k with
  | some n => insertA l k (n + 1)
  | none => insertA l k 1

/-- `isNewSession`: 30-minute inactivity gap. -/
def isNewSession (currentSession : PSession) (event : PEvent) : Bool :=
  event.timestamp - currentSession.lastActivity > 1800000

/-- `startNewSession(user, event)`. -/
def startNewSession (user : UserProfile) (event : PEvent) : UserProfile :=
  let user :=
    match user.currentSession with
    | some cs => { user with sessions := user.sessions ++ [cs] }
    | none => user
  { user with
      currentSession := some
        { startTime := event.timestamp, lastActivity := event.timestamp,
          duration := 0, pageViews := 0, clicks := 0, conversions := 0,
          formSubmissions := 0, events := [], entryPage := event.url,
          device := event.device, referrer := event.referrer },
      metrics := { user.metrics with
        totalSessions := user.metrics.totalSessions + 1 } }

/-- `updatePageMetrics(user, event)`. -/
def updatePageMetrics (user : UserProfile) (event : PEvent) : UserProfile :=
  let user :=
    match event.url with
    | some url =>
      if url.isEmpty then user
      else { user with metrics := { user.metrics with
        pages := bumpCount user.metrics.pages url } }
    | none => user
  match event.referrer with
  | some r =>
    if r.isEmpty then user
    else { user with metrics := { user.metrics with
      referrers := bumpCount user.metrics.referrers r } }
  | none => user

/-- `getDeviceType(userAgent)` (the `/Mobile|Android|iPhone|iPad/` and
`/Tablet/` regex tests, which are alternations of literals). -/
def getDeviceType (userAgent : String) : String :=
  if strIncludes userAgent "Mobile" || strIncludes userAgent "Android" ||
      strIncludes userAgent "iPhone" || strIncludes userAgent "iPad" then
    "mobile"
  else if strIncludes userAgent "Tablet" then "tablet"
  else "desktop"

/-- `getBrowser(userAgent)`. -/
def getBrowser (userAgent : String) : String :=
  if strIncludes userAgent "Chrome" then "Chrome"
  else if strIncludes userAgent "Firefox" then "Firefox"
  else if strIncludes userAgent "Safari" then "Safari"
  else if strIncludes userAgent "Edge" then "Edge"
  else "Other"

/-- `updateDeviceMetrics(user, device)`. -/
def updateDeviceMetrics (user : UserProfile) (userAgent : String) :
    UserProfile :=
  let user := { user with metrics := { user.metrics with
    deviceTypes := bumpCount user.metrics.deviceTypes
      (getDeviceType userAgent) } }
  { user with metrics := { user.metrics with
    browsers := bumpCount user.metrics.browsers (getBrowser userAgent) } }

/-- `user.sessions.reduce((total, s) => total + s.duration, 0)`. -/
def sumDurations (sessions : List PSession) : Int :=
  sessions.foldl (fun total s => total + s.duration) 0

/-- The tail of `updateUserProfile` once the current session `s` is in
place: per-type counters, device histograms, the session-duration
refresh and the closing `totalDuration = Σ archived session
durations`. -/
def applyEventToSession (user : UserProfile) (s : PSession)
  (event : PEvent) : UserProfile :=
  let s := { s with events := s.events ++ [event],
                    lastActivity := event.timestamp }
  let us : UserProfile × PSession :=
    if event.type = "pageview" then
      (updatePageMetrics
        { user with metrics := { user.metrics with
          totalPageViews := user.metrics.totalPageViews + 1 } } event,
       { s with pageViews := s.pageViews + 1 })
    else if event.type = "click" then
      ({ user with metrics := { user.metrics with
         totalClicks := user.metrics.totalClicks + 1 } },
       { s with clicks := s.clicks + 1 })
    else if event.type = "custom" then
      (if jsTruthyStr event.name &&
          strIncludes (event.name.getD "") "conversion" then
        ({ user with metrics := { user.metrics with
           conversionEvents := user.metrics.conversionEvents + 1 } },
         { s with conversions := s.conversions + 1 })
      else (user, s))
    else if event.type = "form_submit" then
      (user, { s with formSubmissions := s.formSubmissions + 1 })
    else (user, s)
  let user := us.1
  let s := us.2
  let user :=
    match event.device with
    | some ua => updateDeviceMetrics user ua
    | none => user
  let s := { s with duration := s.lastActivity - s.startTime }
  let user := { user with currentSession := some s }
  { user with metrics := { user.metrics with
    totalDuration := sumDurations user.sessions } }

/-- `updateUserProfile(user, event)`: session management, then
`applyEventToSession`. -/
def updateUserProfile (user : UserProfile) (event : PEvent) : UserProfile :=
  let user := { user with lastSeen := event.timestamp }
  let user :=
    match user.currentSession with
    | none => startNewSession user event
    | some cs => if isNewSession cs event then startNewSession user event
                 else user
  match user.currentSession with
  | none => user
  | some s => applyEventToSession user s event

/-- `getMostFrequentDevice(user)`. -/
def getMostFrequentDevice (user : UserProfile) : String :=
  (user.metrics.deviceTypes.foldl
    (fun acc p => if p.2 > acc.2 then p else acc) ("desktop", 0)).1

/-- `getMobileSessionRatio(user, timeframe)` (timeframe unused by the
source body). -/
def getMobileSessionRatio (user : UserProfile) : Rat :=
  let mobileCount := (lookupA user.metrics.deviceTypes "mobile").getD 0
  let totalSessions := user.metrics.totalSessions
  if totalSessions > 0 then (mobileCount : Rat) / (totalSessions : Rat)
  else 0

/-- `getUserMetric(user, metric, timeframe = "all")`.  `x || 0` on an
absent session is the `getD 0`. -/
def getUserMetric (user : UserProfile) (metric : String)
    (timeframe : String) : JSValue :=
  let session := user.currentSession
  if metric = "pageViews" then
    if timeframe = "session" then
      .num ((session.map (·.pageViews)).getD 0 : Nat)
    else .num user.metrics.totalPageViews
  else if metric = "sessionDuration" then
    if timeframe = "session" then
      .num ((session.map (·.duration)).getD 0 : Int)
    else .num ((user.metrics.totalDuration : Rat) /
      (user.metrics.totalSessions : Rat))
  else if metric = "clickCount" then
    if timeframe = "session" then
      .num ((session.map (·.clicks)).getD 0 : Nat)
    else .num user.metrics.totalClicks
  else if metric = "conversionEvents" then
    if timeframe = "session" then
      .num ((session.map (·.conversions)).getD 0 : Nat)
    else .num user.metrics.conversionEvents
  else if metric = "deviceType" then
    .str (getMostFrequentDevice user)
  else if metric = "mobileSessionRatio" then
    .num (getMobileSessionRatio user)
  else if metric = "funnelCompletion" then
    .bool (match session with
      | some s => decide (s.conversions > 0)
      | none => false)
  else .num 0

/-- `evaluateRule(user, rule)`: comparator dispatch.  `between` indexes
`rule.value`: on an array or string this yields the element (or
`undefined` out of range), on a number or boolean it yields `undefined`
and the comparisons are then false, but on an `undefined` operand the
indexing itself throws; `in` calls `rule.value.includes`, which throws
on `undefined` and on a value that is neither array nor string. -/
def evaluateRule (user : UserProfile) (rule : PRule) : Except String Bool :=
  let value := getUserMetric user rule.metric (rule.timeframe.getD "all")
  if rule.op = ">" then .ok (jsGT value rule.value)
  else if rule.op = "<" then .ok (jsLT value rule.value)
  else if rule.op = ">=" then .ok (jsGE value rule.value)
  else if rule.op = "<=" then .ok (jsLE value rule.value)
  else if rule.op = "=" then .ok (jsStrictEq value rule.value)
  else if rule.op = "!=" then .ok (!jsStrictEq value rule.value)
  else if rule.op = "between" then
    match rule.value with
    | .undefinedV => .error "TypeError: Cannot read properties of undefined"
    | .arr l => .ok (jsGE value (l.getD 0 .undefinedV) && jsLE value (l.getD 1 .undefinedV))
    | .str s => .ok (jsGE value (strCharAt s 0) && jsLE value (strCharAt s 1))
    | _ => .ok (jsGE value .undefinedV && jsLE value .undefinedV)
  else if rule.op = "in" then
    match rule.value with
    | .undefinedV => .error "TypeError: Cannot read properties of undefined"
    | .arr l => .ok (l.any fun v => jsStrictEq v value)
    | .str s => .ok (strIncludes s (jsToString value))
    | _ => .error "TypeError: rule.value.includes is not a function"
  else .ok false

/-- `persona.rules.every(rule => evaluateRule(user, rule))`; a thrown
rule error propagates. -/
def rulesAll (user : UserProfile) : List PRule → Except String Bool
  | [] => .ok true
  | r :: rs => do
    let b ← evaluateRule user r
    if b then rulesAll user rs else .ok false

/-- `userMatchesPersona(user, persona)`. -/
def userMatchesPersona (user : UserProfile) (persona : Persona) :
    Except String Bool :=
  rulesAll user persona.rules

/-- `calculatePersonaConfidence(user, persona)`.  In the `>` branch a
zero threshold makes the JS quotient `Infinity`, so `Math.min(1, ·)` is
`1`; NaN propagation for non-numeric `>` operands is not modelled (no
such rule exists in the script). -/
def calculatePersonaConfidence (user : UserProfile) (persona : Persona) :
    Int :=
  let totalRules := persona.rules.length
  let score := persona.rules.foldl
    (fun score rule =>
      let userValue := getUserMetric user rule.metric
        (rule.timeframe.getD "all")
      let ruleScore : Rat :=
        if rule.op = ">" && jsGT userValue rule.value then
          match toNumber userValue, toNumber rule.value with
          | some uv, some rv =>
            if rv * 2 = 0 then 1 else min 1 (uv / (rv * 2))
          | _, _ => 0
        else if rule.op = "=" && jsStrictEq userValue rule.value then 1
        else 0
      score + ruleScore)
    (0 : Rat)
  round (score / (totalRules : Rat) * 100)

/-- Segment aggregate metrics (`initializePersonaMetrics` shape; the
presentation-only `topPages`/`commonDevices`/ distribution fields are
omitted). -/
structure SegmentMetrics : Type where
  totalUsers : Nat
  activeUsers : Nat
  avgSessionDuration : Rat
  avgPageViews : Rat
  conversionRate : Rat
  retentionRate : Rat
deriving Repr, DecidableEq

/-- `initializePersonaMetrics()`. -/
def initPersonaMetrics : SegmentMetrics :=
  { totalUsers := 0, activeUsers := 0, avgSessionDuration := 0,
    avgPageViews := 0, conversionRate := 0, retentionRate := 0 }

/-- A segment: the persona's membership set plus aggregates.  (The
source also stores the persona object itself; it is recovered from
`personas` by id here.) -/
structure Segment : Type where
  users : List String
  metrics : SegmentMetrics
deriving Repr, DecidableEq

/-- The `PersonaAnalyzer` state: `config.personas`, the user-profile
map and the segment map. -/
structure PAnalyzer : Type where
  personas : List Persona
  users : List (String × UserProfile)
  segments : List (String × Segment)

/-- `definePersona(id, config)`: push the persona and create its
segment. -/
def definePersona (an : PAnalyzer) (p : Persona) : PAnalyzer :=
  { an with
      personas := an.personas ++ [p],
      segments := insertA an.segments p.id
        { users := [], metrics := initPersonaMetrics } }

/-- The "Power User" built-in persona. -/
def powerUserPersona : Persona :=
  { id := "power_user", name := "Power User",
    rules := [
      { metric := "pageViews", op := ">", value := .num 10,
        timeframe := some "session" },
      { metric := "sessionDuration", op := ">", value := .num 300000,
        timeframe := some "session" },
      { metric := "clickCount", op := ">", value := .num 50,
        timeframe := some "session" }] }

/-- The "Casual User" built-in persona. -/
def casualUserPersona : Persona :=
  { id := "casual_user", name := "Casual User",
    rules := [
      { metric := "pageViews", op := "between",
        value := .arr [.num 3, .num 10], timeframe := some "session" },
      { metric := "sessionDuration", op := "between",
        value := .arr [.num 60000, .num 300000],
        timeframe := some "session" }] }

/-- The "Bouncer" built-in persona. -/
def bouncerPersona : Persona :=
  { id := "bouncer", name := "Bouncer",
    rules := [
      { metric := "pageViews", op := "<=", value := .num 1,
        timeframe := some "session" },
      { metric := "sessionDuration", op := "<", value := .num 30000,
        timeframe := some "session" }] }

/-- The "Mobile User" built-in persona. -/
def mobileUserPersona : Persona :=
  { id := "mobile_user", name := "Mobile User",
    rules := [
      { metric := "deviceType", op := "=", value := .str "mobile",
        timeframe := some "session" },
      { metric := "mobileSessionRatio", op := ">", value := .num (8/10),
        timeframe := some "week" }] }

/-- The "Converter" built-in persona. -/
def converterPersona : Persona :=
  { id := "converter", name := "Converter",
    rules := [
      { metric := "conversionEvents", op := ">", value := .num 0,
        timeframe := some "session" },
      { metric := "funnelCompletion", op := "=", value := .bool true,
        timeframe := some "session" }] }

/-- The analyzer state after the constructor ran
`initializeDefaultPersonas` (with `autoSegment` timers out of scope). -/
def defaultPAnalyzer : PAnalyzer :=
  [powerUserPersona, casualUserPersona, bouncerPersona, mobileUserPersona,
    converterPersona].foldl definePersona
    { personas := [], users := [], segments := [] }

/-- The `this.config.personas.forEach` phase of `analyzeUserPersona`:
matched personas are recorded in `newPersonas`; those not in the
entry-time `currentPersonas0` snapshot are pushed onto the profile (the
push happens before the segment lookup, as in the source) and added to
their segment's set.  A thrown rule error or a missing segment aborts
the loop, keeping the mutations applied so far. -/
def matchLoop (currentPersonas0 : List String) (now : Int) :
    List Persona → UserProfile → List (String × Segment) → List String →
    UserProfile × List (String × Segment) × List String × Option String
  | [], user, segments, acc => (user, segments, acc, none)
  | p :: ps, user, segments, acc =>
    match userMatchesPersona user p with
    | .error e => (user, segments, acc, some e)
    | .ok false => matchLoop currentPersonas0 now ps user segments acc
    | .ok true =>
      let acc := setAdd acc p.id
      if p.id ∈ currentPersonas0 then
        matchLoop currentPersonas0 now ps user segments acc
      else
        let conf := calculatePersonaConfidence user p
        let user := { user with personas := user.personas ++
          [{ id := p.id, assignedAt := now, confidence := conf }] }
        match lookupA segments p.id with
        | some seg =>
          let segments := insertA segments p.id
            { seg with users := setAdd seg.users user.id }
          matchLoop currentPersonas0 now ps user segments acc
        | none => (user, segments, acc, some "TypeError: segment is undefined")

/-- The `user.personas = user.personas.filter(...)` phase: assignments
whose id is not in `newPersonas` are dropped and the user is deleted
from that segment's set.  A missing segment throws out of the filter
callback: the deletions applied so far persist but the filtered list is
never assigned (the caller keeps the original list on `some` error). -/
def removalLoop (uid : String) (newPersonas : List String) :
    List PersonaAssignment → List (String × Segment) →
    List PersonaAssignment × List (String × Segment) × Option String
  | [], segments => ([], segments, none)
  | a :: rest, segments =>
    if a.id ∈ newPersonas then
      match removalLoop uid newPersonas rest segments with
      | (kept, segments', err) => (a :: kept, segments', err)
    else
      match lookupA segments a.id with
      | some seg =>
        removalLoop uid newPersonas rest
          (insertA segments a.id
            { seg with users := setDelete seg.users uid })
      | none => ([], segments, some "TypeError: segment is undefined")

/-- `updatePersonaMetrics()`: recompute each segment's aggregates from
its current membership (`now` is `Date.now()`). -/
def updatePersonaMetrics (an : PAnalyzer) (now : Int) : PAnalyzer :=
  { an with segments := an.segments.map fun kv =>
      let seg := kv.2
      let users := seg.users.filterMap (lookupA an.users)
      let m := seg.metrics
      let m := { m with
        totalUsers := users.length,
        activeUsers :=
          (users.filter fun u => now - u.lastSeen < 86400000).length }
      let m :=
        if users.length > 0 then
          { m with
              avgSessionDuration :=
                (users.foldl (fun sum u => sum +
                  (u.metrics.totalDuration : Rat) /
                    (u.metrics.totalSessions : Rat)) 0) /
                  (users.length : Rat),
              avgPageViews :=
                (users.foldl (fun sum u => sum +
                  (u.metrics.totalPageViews : Rat) /
                    (u.metrics.totalSessions : Rat)) 0) /
                  (users.length : Rat),
              conversionRate :=
                ((users.filter fun u =>
                  u.metrics.conversionEvents > 0).length : Rat) /
                  (users.length : Rat) }
        else m
      (kv.1, { seg with metrics := m }) }

/-- `analyzeUserPersona(user)`.  `key` is the map key under which the
(JS-aliased) profile object lives; all writes to the profile are
reflected there.  On an abort (`some` error) the mutations applied so
far persist and `updatePersonaMetrics` is never reached, as in the
source. -/
def analyzeUserPersona (an : PAnalyzer) (key : String)
    (user : UserProfile) (now : Int) :
    PAnalyzer × UserProfile × Option String :=
  let currentPersonas := user.personas.map (·.id)
  match matchLoop currentPersonas now an.personas user an.segments [] with
  | (user, segments, newPersonas, some e) =>
    ({ an with
        segments := segments,
        users := insertA an.users key user }, user, some e)
  | (user, segments, newPersonas, none) =>
    match removalLoop user.id newPersonas user.personas segments with
    | (_, segments, some e) =>
      ({ an with
          segments := segments,
          users := insertA an.users key user }, user, some e)
    | (kept, segments, none) =>
      let user := { user with personas := kept }
      let an := { an with
        segments := segments,
        users := insertA an.users key user }
      (updatePersonaMetrics an now, user, none)

/-- `addUserEvent(userId, event)`: get-or-create the profile, update it,
then re-evaluate personas (`now` is `Date.now()`). -/
def addUserEvent (an : PAnalyzer) (userId : String) (event : PEvent)
    (now : Int) : PAnalyzer × Option String :=
  let user :=
    match lookupA an.users userId with
    | some u => u
    | none => createUserProfile userId now
  let user := updateUserProfile user event
  let an := { an with users := insertA an.users userId user }
  match analyzeUserPersona an userId user now with
  | (an, _, err) => (an, err)

/-! ## Delivery queue

Two implementations ship in the repository: `StandLogTracker` in
`js/modules/tracking/core.js` (threshold 10, 5-second interval timer,
clear-on-`response.ok` only) and `StandLogAnalytics` in the main script
(threshold 5, no interval timer, session-creation before delivery,
unconditional clear once the fetch resolves).  Event payloads are an
arbitrary type `α`.  The async flush is modelled as one atomic run: the
buffer at call time, the events enqueued while the request is in flight,
and the transport outcome are its inputs. -/

/-- Outcome of the `fetch` of a batch: resolved with `response.ok`,
resolved with a non-success status, or rejected (network error). -/
inductive FetchOutcome : Type
  | ok
  | httpError
  | networkError
deriving Repr, DecidableEq

/-- One complete run of `StandLogTracker.sendEvents` (core.js).
Returns the transmitted payload (if a request was issued) and
`this.events` once the run finished.  The payload is snapshotted at call
time (`[...this.events]`); `this.events = []` runs only on
`response.ok`. -/
def sendEventsCore {α : Type} (buffer arrivals : List α)
    (outcome : FetchOutcome) : Option (List α) × List α :=
  if buffer.isEmpty then (none, arrivals)
  else
    let payload := buffer
    let inflight := buffer ++ arrivals
    match outcome with
    | .ok => (some payload, [])
    | .httpError => (some payload, inflight)
    | .networkError => (some payload, inflight)

/-- The buffer-and-flush-log slice of `StandLogTracker`; `flushes`
records each transmitted batch (in the success-path model used for the
threshold claims, where a flush completes before the next enqueue). -/
structure CoreQueue (α : Type) : Type where
  events : List α
  flushes : List (List α)
deriving Repr, DecidableEq

/-- `StandLogTracker.addEvent`: push, then flush when the buffer has
reached 10 events (success path of `sendEvents`). -/
def coreAddEvent {α : Type} (st : CoreQueue α) (e : α) : CoreQueue α :=
  let events := st.events ++ [e]
  if 10 ≤ events.length then
    { events := [], flushes := st.flushes ++ [events] }
  else
    { st with events := events }

/-- The 5-second `setInterval` body of `startTracking`: flush when the
buffer is non-empty (success path). -/
def coreTimerFlush {α : Type} (st : CoreQueue α) : CoreQueue α :=
  if 0 < st.events.length then
    { events := [], flushes := st.flushes ++ [st.events] }
  else st

/-- `StandLogAnalytics.addEvent` (main script): identical shape but the
threshold is 5. -/
def p3AddEvent {α : Type} (st : CoreQueue α) (e : α) : CoreQueue α :=
  let events := st.events ++ [e]
  if 5 ≤ events.length then
    { events := [], flushes := st.flushes ++ [events] }
  else
    { st with events := events }

/-- Response of `POST /session` (`ensureSession`): HTTP success flag and
the optional canonical session id in the body. -/
structure SessionResponse : Type where
  ok : Bool
  id : Option String
deriving Repr, DecidableEq

/-- The network requests issued during one `sendEvents` run of
`StandLogAnalytics`, in program order. -/
inductive P3Action (α : Type) : Type
  | sessionCall
  | eventsCall (sessionId : String) (events : List α)
deriving Repr, DecidableEq

/-- The `sendEvents`-relevant slice of `StandLogAnalytics` state. -/
structure P3State (α : Type) : Type where
  events : List α
  sessionId : String
  sessionCreated : Bool
deriving Repr, DecidableEq

/-- `ensureSession()`: early-return when the session was already
created; otherwise POST `/session` (`resp = none` models a rejected
fetch, caught internally).  On `response.ok`, a returned id is adopted
and `sessionCreated` is set. -/
def ensureSession {α : Type} (st : P3State α)
    (resp : Option SessionResponse) : P3State α × List (P3Action α) :=
  if st.sessionCreated then (st, [])
  else
    match resp with
    | none => (st, [P3Action.sessionCall])
    | some r =>
      if r.ok then
        let st :=
          match r.id with
          | some i => { st with sessionId := i }
          | none => st
        ({ st with sessionCreated := true }, [P3Action.sessionCall])
      else (st, [P3Action.sessionCall])

/-- Resolution of the `/event` fetch: resolved (any status — the source
checks no status here) or rejected. -/
inductive P3Outcome : Type
  | resolved
  | threw
deriving Repr, DecidableEq

/-- One complete run of `StandLogAnalytics.sendEvents`: empty-buffer
early return; `await ensureSession()`; payload snapshot (events enqueued
during the session call, `aSess`, are included); the `/event` fetch,
after which `this.events = []` runs unconditionally on resolution —
events enqueued during the event fetch (`aEvt`) remain only when the
fetch rejects. -/
def sendEventsP3 {α : Type} (st : P3State α)
    (resp : Option SessionResponse) (aSess aEvt : List α)
    (outcome : P3Outcome) : P3State α × List (P3Action α) :=
  if st.events.isEmpty then (st, [])
  else
    let es := ensureSession st resp
    let st1 := { es.1 with events := es.1.events ++ aSess }
    let payload := st1.events
    let inflight := st1.events ++ aEvt
    match outcome with
    | .resolved =>
      ({ st1 with events := [] },
        es.2 ++ [P3Action.eventsCall st1.sessionId payload])
    | .threw =>
      ({ st1 with events := inflight },
        es.2 ++ [P3Action.eventsCall st1.sessionId payload])


/-- The `reached` counter of step `i` of a stats record (0 when out of
range); used to state the funnel-shape property. -/
def reachedAt (stats : FunnelStats) (i : Nat) : Nat :=
  ((stats.steps.get? i).map (·.reached)).getD 0

/-- `1` when the session has reached step `j` (its `currentStep` is at
least `j`), else `0`. -/
def stepInd (s : FSession) (j : Nat) : Nat :=
  if (j : Int) ≤ s.currentStep then 1 else 0

/-- How many sessions of the per-funnel map have reached step `i`. -/
def countGE (sessions : List (String × FSession)) (i : Nat) : Nat :=
  (sessions.filter fun p => (i : Int) ≤ p.2.currentStep).length

/-- The bookkeeping invariant tying the `reached` counters to the
session states, for funnels with backtracking disabled. -/
def FunnelInv (funnel : Funnel) (fd : FunnelData) : Prop :=
  fd.stats.steps.length = funnel.steps.length ∧
  ∀ i, i < funnel.steps.length →
    reachedAt fd.stats i = countGE fd.sessions i


/-- Membership of user id `v` in the segment keyed `q` of a segment
map; used to state the profile/segment agreement invariant. -/
def memSeg (segs : List (String × Segment)) (q v : String) : Prop :=
  v ∈ ((lookupA segs q).map Segment.users).getD []

/-- Wellformedness of a `PersonaAnalyzer` state: every defined persona
has a segment; profile-map keys are the profiles' ids and are unique;
every persona id recorded on a profile is a defined persona's id; and
every segment member is a stored user's id. -/
def PWf (an : PAnalyzer) : Prop :=
  (∀ p ∈ an.personas, (lookupA an.segments p.id).isSome = true) ∧
  (∀ kv ∈ an.users, kv.2.id = kv.1) ∧
  (an.users.map Prod.fst).Nodup ∧
  (∀ kv ∈ an.users, ∀ a ∈ kv.2.personas,
    a.id ∈ an.personas.map Persona.id) ∧
  (∀ kv ∈ an.segments, ∀ v ∈ kv.2.users,
    (lookupA an.users v).isSome = true)

/-- The agreement invariant of C9: a persona's id appears on a stored
profile's list exactly when that profile's id is in the persona's
segment set. -/
def PInv (an : PAnalyzer) : Prop :=
  ∀ kv ∈ an.users, ∀ p ∈ an.personas,
    (p.id ∈ kv.2.personas.map PersonaAssignment.id ↔
      memSeg an.segments p.id kv.2.id)

/-! ## Concrete fixtures used by the claim theorems -/

/-- A three-step funnel on custom events `"a"`, `"b"`, `"c"`,
backtracking disabled. -/
def cFunnel3 : Funnel :=
  { steps := [{ event := some "a" }, { event := some "b" },
      { event := some "c" }],
    options := { allowBacktrack := false } }

/-- A two-step funnel on custom events `"a"`, `"b"`, backtracking
allowed. -/
def cFunnelBack : Funnel :=
  { steps := [{ event := some "a" }, { event := some "b" }],
    options := { allowBacktrack := true } }

/-- A custom event named `"a"` (matches only the first step). -/
def cEventA : FEvent :=
  { type := "custom", name := some "a", sessionId := "s", timestamp := 1 }

/-- A custom event named `"b"` (matches only the second step). -/
def cEventB : FEvent :=
  { type := "custom", name := some "b", sessionId := "s", timestamp := 2 }

/-- A pageview event with a well-formed URL. -/
def cEventPage : FEvent :=
  { type := "pageview", url := some "http://example.com/x",
    sessionId := "s", timestamp := 1 }

/-- A step whose URL pattern `"[*"` is rewritten to the regex source
`"[.*"`, which `new RegExp` rejects. -/
def cBadStep : Step := { url := some "[*" }

/-- An `in` rule whose operand is a number, so that
`rule.value.includes` is not a function. -/
def cRuleInNum : PRule :=
  { metric := "pageViews", op := "in", value := .num 5 }

/-- The "Power User" example session: 11 page views, 310000 ms, 55
clicks. -/
def cSession7 : PSession :=
  { startTime := 0, lastActivity := 310000, duration := 310000,
    pageViews := 11, clicks := 55, conversions := 0, formSubmissions := 0 }

/-- A profile whose current session is `cSession7`. -/
def cUser7 : UserProfile :=
  { id := "u1", firstSeen := 0, lastSeen := 310000, sessions := [],
    currentSession := some cSession7, personas := [],
    metrics := { totalSessions := 1, totalPageViews := 11,
                 totalDuration := 0, totalClicks := 55,
                 conversionEvents := 0, deviceTypes := [], browsers := [],
                 referrers := [], pages := [] } }

/-- The default analyzer holding `cUser7`. -/
def cAnalyzer7 : PAnalyzer :=
  { defaultPAnalyzer with users := [("u1", cUser7)] }

/-- First persona re-evaluation of `cUser7`. -/
def cRun7 : PAnalyzer × UserProfile × Option String :=
  analyzeUserPersona cAnalyzer7 "u1" cUser7 400000

/-- The same profile after a later ingest left the session click count
at 10. -/
def cUser7b : UserProfile :=
  { cRun7.2.1 with currentSession := some { cSession7 with clicks := 10 } }

/-- The analyzer state holding `cUser7b`. -/
def cAnalyzer7b : PAnalyzer :=
  { cRun7.1 with users := insertA cRun7.1.users "u1" cUser7b }

/-- Persona re-evaluation after the click count dropped. -/
def cRun7b : PAnalyzer × UserProfile × Option String :=
  analyzeUserPersona cAnalyzer7b "u1" cUser7b 500000


/-- A pageview ingested by the persona analyzer for the C10 witness. -/
def cEventC10 : PEvent := { type := "pageview", timestamp := 100 }

/-- The analyzer after ingesting `cEventC10` for a fresh user. -/
def cAnalyzerC10 : PAnalyzer :=
  (addUserEvent defaultPAnalyzer "u9" cEventC10 100).1

/-- The stored profile of that user. -/
def cUserC10 : UserProfile :=
  (lookupA cAnalyzerC10.users "u9").getD (createUserProfile "u9" 100)

/-! ## Shared lemmas -/

theorem lookupA_insertA_self {α : Type} (l : List (String × α)) (k : String)
    (v : α) : lookupA (insertA l k v) k = some v := by
  induction l with
  | nil => simp [insertA, lookupA]
  | cons p t ih =>
    obtain ⟨k', v'⟩ := p
    by_cases hk : k' = k
    · simp [insertA, hk, lookupA]
    · simp [insertA, hk, lookupA, ih]

theorem lookupA_insertA_ne {α : Type} (l : List (String × α))
    (k k' : String) (v : α) (hne : k' ≠ k) :
    lookupA (insertA l k v) k' = lookupA l k' := by
  have hkk : ¬k = k' := fun h => hne h.symm
  induction l with
  | nil => simp [insertA, lookupA, hkk]
  | cons p t ih =>
    obtain ⟨k₀, v₀⟩ := p
    by_cases hk : k₀ = k
    · subst hk
      simp [insertA, lookupA, hkk]
    · simp only [insertA, if_neg hk, lookupA, ih]

theorem ensureSession_events {α : Type} (st : P3State α)
    (resp : Option SessionResponse) :
    ((ensureSession st resp).1).events = st.events := by
  unfold ensureSession
  split
  · rfl
  · cases resp with
    | none => rfl
    | some r =>
      simp only
      split
      · cases r.id <;> rfl
      · rfl

/-! ## Claim theorems -/

/-- C1: for every funnel and state, `processStepCompletion` either
advances `currentStep` by exactly one (from `k` to `k + 1`) or does not
increase it; a match on a step index strictly beyond
`currentStep + 1` leaves the session record and every statistics counter
unchanged; and in the concrete 3-step funnel with backtracking disabled,
matching the second step first leaves `currentStep` at `-1` with pristine
statistics. -/
theorem funnel_no_skip_invariant :
    (∀ (funnel : Funnel) (session : FSession) (stats : FunnelStats)
        (i : Nat) (e : FEvent),
      (processStepCompletion funnel session stats i e).1.currentStep =
          session.currentStep + 1 ∨
        (processStepCompletion funnel session stats i e).1.currentStep ≤
          session.currentStep) ∧
    (∀ (funnel : Funnel) (session : FSession) (stats : FunnelStats)
        (i : Nat) (e : FEvent),
      session.currentStep + 1 < (i : Int) →
        processStepCompletion funnel session stats i e = (session, stats)) ∧
    ((lookupA (runFunnelEvents cFunnel3 (initFunnelData cFunnel3)
        [cEventB]).sessions "s").map (·.currentStep) = some (-1) ∧
      (runFunnelEvents cFunnel3 (initFunnelData cFunnel3)
        [cEventB]).stats = initFunnelStats 3) := by
  refine ⟨?_, ?_, by decide⟩
  · intro funnel session stats i e
    by_cases h1 : (i : Int) = session.currentStep + 1
    · left
      simp only [processStepCompletion, if_pos h1]
      split <;> simp [h1]
    · by_cases h2 : funnel.options.allowBacktrack = true ∧
          (i : Int) < session.currentStep + 1
      · right
        obtain ⟨hbt, hlt⟩ := h2
        simp [processStepCompletion, h1, hbt, hlt]
        omega
      · right
        simp [processStepCompletion, h1, h2]
  · intro funnel session stats i e hskip
    have h1 : ¬((i : Int) = session.currentStep + 1) := by omega
    have h2 : ¬(funnel.options.allowBacktrack = true ∧
        (i : Int) < session.currentStep + 1) := by
      rintro ⟨-, hlt⟩
      omega
    simp [processStepCompletion, h1, h2]

/-- Witness for the skip-is-ignored hypothesis of C1: matching step 2
while `currentStep = -1` changes nothing. -/
theorem funnel_no_skip_invariant_witness :
    processStepCompletion cFunnel3 (newFSession cEventB)
      (initFunnelStats 3) 2 cEventB =
      (newFSession cEventB, initFunnelStats 3) :=
  funnel_no_skip_invariant.2.1 cFunnel3 (newFSession cEventB)
    (initFunnelStats 3) 2 cEventB (by decide)

/-- C2 (code bug): a successful flush of `StandLogTracker.sendEvents`
executes `this.events = []`, erasing the whole buffer — the event `2`
enqueued while the request was in flight was not part of the transmitted
batch, yet is gone from the buffer afterwards (it is lost, never
transmitted). -/
theorem core_flush_drops_inflight_event :
    sendEventsCore [1] [2] FetchOutcome.ok = (some [1], ([] : List Nat)) ∧
    (2 : Nat) ∉ (sendEventsCore [1] [2] FetchOutcome.ok).2 := by
  decide

/-- C3 counterexample: after a non-success HTTP response,
`StandLogTracker.sendEvents` leaves the batch in `this.events`, and the
very next flush transmits the same batch again — the failed batch is
not discarded. -/
theorem core_failed_batch_is_retried :
    (sendEventsCore [1] ([] : List Nat) FetchOutcome.httpError).2 = [1] ∧
    (sendEventsCore
      ((sendEventsCore [1] ([] : List Nat) FetchOutcome.httpError).2)
      [] FetchOutcome.ok).1 = some [1] := by
  decide

/-- C3 amended: on a transmission failure, `StandLogTracker` (core.js)
keeps the pending batch in the buffer — for both a non-success HTTP
status and a rejected fetch — so it is included in the next flush; in
`StandLogAnalytics` (main script) a rejected fetch keeps the batch while
a resolved response of any status clears the buffer.  Normal operation
continues in every case (the run returns, with the buffer in the stated
state). -/
theorem failure_retains_batch {α : Type} (buffer arrivals : List α)
    (hne : buffer ≠ []) :
    (sendEventsCore buffer arrivals FetchOutcome.httpError).2 =
        buffer ++ arrivals ∧
    (sendEventsCore buffer arrivals FetchOutcome.networkError).2 =
        buffer ++ arrivals ∧
    (∀ (st : P3State α) (resp : Option SessionResponse) (aS aE : List α),
      st.events = buffer →
        (sendEventsP3 st resp aS aE P3Outcome.threw).1.events =
            buffer ++ aS ++ aE ∧
          (sendEventsP3 st resp aS aE P3Outcome.resolved).1.events = []) := by
  have hbe : buffer.isEmpty = false := by
    cases buffer with
    | nil => exact absurd rfl hne
    | cons a t => rfl
  refine ⟨?_, ?_, ?_⟩
  · simp [sendEventsCore, hbe]
  · simp [sendEventsCore, hbe]
  · intro st resp aS aE hst
    have hse : st.events.isEmpty = false := by rw [hst]; exact hbe
    constructor
    · simp [sendEventsP3, hse, hbe, ensureSession_events, hst,
        List.append_assoc]
    · simp [sendEventsP3, hse, hbe, hst]

/-- Witness for C3's amended theorem at a concrete state. -/
theorem failure_retains_batch_witness :
    (sendEventsCore [1] [2] FetchOutcome.httpError).2 = [1] ++ [2] ∧
    (sendEventsCore [1] [2] FetchOutcome.networkError).2 = [1] ++ [2] ∧
    (∀ (st : P3State Nat) (resp : Option SessionResponse) (aS aE : List Nat),
      st.events = [1] →
        (sendEventsP3 st resp aS aE P3Outcome.threw).1.events =
            [1] ++ aS ++ aE ∧
          (sendEventsP3 st resp aS aE P3Outcome.resolved).1.events = []) :=
  failure_retains_batch [1] [2] (by decide)

theorem coreAddEvent_below_threshold {α : Type} (es : List α) :
    ∀ (buf : List α) (fl : List (List α)), buf.length + es.length ≤ 9 →
      es.foldl coreAddEvent { events := buf, flushes := fl } =
        { events := buf ++ es, flushes := fl } := by
  induction es with
  | nil => intro buf fl _; simp
  | cons e t ih =>
    intro buf fl h
    simp only [List.foldl_cons, List.length_cons] at h ⊢
    have hstep : coreAddEvent { events := buf, flushes := fl } e =
        { events := buf ++ [e], flushes := fl } := by
      simp only [coreAddEvent]
      rw [if_neg (by simp only [List.length_append, List.length_cons,
        List.length_nil]; omega)]
    rw [hstep, ih (buf ++ [e]) fl (by simp only [List.length_append,
      List.length_cons, List.length_nil]; omega)]
    simp

theorem coreAddEvent_reach_threshold {α : Type} (es : List α) :
    ∀ (buf : List α) (fl : List (List α)), buf.length + es.length = 10 →
      es ≠ [] →
      es.foldl coreAddEvent { events := buf, flushes := fl } =
        { events := [], flushes := fl ++ [buf ++ es] } := by
  induction es with
  | nil => intro buf fl _ hne; cases hne rfl
  | cons e t ih =>
    intro buf fl h hne
    simp only [List.length_cons, List.length_nil] at h
    have htlen : 0 ≤ t.length := Nat.zero_le _
    by_cases ht : t = []
    · subst ht
      simp only [List.length_nil] at h
      simp only [List.foldl_cons, List.foldl_nil]
      simp only [coreAddEvent]
      rw [if_pos (by simp only [List.length_append, List.length_cons,
        List.length_nil]; omega)]
    · have htpos : 0 < t.length := List.length_pos.mpr ht
      simp only [List.foldl_cons]
      have hstep : coreAddEvent { events := buf, flushes := fl } e =
          { events := buf ++ [e], flushes := fl } := by
        simp only [coreAddEvent]
        rw [if_neg (by simp only [List.length_append, List.length_cons,
          List.length_nil]; omega)]
      rw [hstep, ih (buf ++ [e]) fl (by simp only [List.length_append,
        List.length_cons, List.length_nil]; omega) ht]
      simp

theorem p3AddEvent_below_threshold {α : Type} (es : List α) :
    ∀ (buf : List α) (fl : List (List α)), buf.length + es.length ≤ 4 →
      es.foldl p3AddEvent { events := buf, flushes := fl } =
        { events := buf ++ es, flushes := fl } := by
  induction es with
  | nil => intro buf fl _; simp
  | cons e t ih =>
    intro buf fl h
    simp only [List.foldl_cons, List.length_cons] at h ⊢
    have hstep : p3AddEvent { events := buf, flushes := fl } e =
        { events := buf ++ [e], flushes := fl } := by
      simp only [p3AddEvent]
      rw [if_neg (by simp only [List.length_append, List.length_cons,
        List.length_nil]; omega)]
    rw [hstep, ih (buf ++ [e]) fl (by simp only [List.length_append,
      List.length_cons, List.length_nil]; omega)]
    simp

theorem p3AddEvent_reach_threshold {α : Type} (es : List α) :
    ∀ (buf : List α) (fl : List (List α)), buf.length + es.length = 5 →
      es ≠ [] →
      es.foldl p3AddEvent { events := buf, flushes := fl } =
        { events := [], flushes := fl ++ [buf ++ es] } := by
  induction es with
  | nil => intro buf fl _ hne; cases hne rfl
  | cons e t ih =>
    intro buf fl h hne
    simp only [List.length_cons, List.length_nil] at h
    have htlen : 0 ≤ t.length := Nat.zero_le _
    by_cases ht : t = []
    · subst ht
      simp only [List.length_nil] at h
      simp only [List.foldl_cons, List.foldl_nil]
      simp only [p3AddEvent]
      rw [if_pos (by simp only [List.length_append, List.length_cons,
        List.length_nil]; omega)]
    · have htpos : 0 < t.length := List.length_pos.mpr ht
      simp only [List.foldl_cons]
      have hstep : p3AddEvent { events := buf, flushes := fl } e =
          { events := buf ++ [e], flushes := fl } := by
        simp only [p3AddEvent]
        rw [if_neg (by simp only [List.length_append, List.length_cons,
          List.length_nil]; omega)]
      rw [hstep, ih (buf ++ [e]) fl (by simp only [List.length_append,
        List.length_cons, List.length_nil]; omega) ht]
      simp

/-- C4 counterexample: in `StandLogAnalytics.addEvent` (main script) the
flush fires once the buffer holds 5 events — enqueuing the five events
`0..4` from an empty buffer already produces a flush, where the claim's
threshold of 10 predicts none. -/
theorem main_script_flushes_at_five :
    (([0, 1, 2, 3, 4] : List Nat).foldl p3AddEvent
        { events := [], flushes := [] } =
      { events := [], flushes := [[0, 1, 2, 3, 4]] }) ∧
    ¬(([0, 1, 2, 3, 4] : List Nat).foldl p3AddEvent
        { events := [], flushes := [] }).flushes = [] := by
  decide

/-- C4 amended: `StandLogTracker.addEvent` (core.js) flushes exactly at
the threshold of 10 — ten enqueues from empty produce exactly one flush
whose batch is exactly those ten events and leave the buffer empty, and
nine enqueues produce no flush until the 5-second interval timer flushes
exactly those nine; `StandLogAnalytics.addEvent` (main script) behaves
the same way with threshold 5. -/
theorem addEvent_flush_thresholds {α : Type} (es : List α) :
    (es.length = 10 →
      es.foldl coreAddEvent { events := [], flushes := [] } =
        { events := [], flushes := [es] }) ∧
    (es.length = 9 →
      es.foldl coreAddEvent { events := [], flushes := [] } =
          { events := es, flushes := [] } ∧
        coreTimerFlush
            (es.foldl coreAddEvent { events := [], flushes := [] }) =
          { events := [], flushes := [es] }) ∧
    (es.length = 5 →
      es.foldl p3AddEvent { events := [], flushes := [] } =
        { events := [], flushes := [es] }) := by
  refine ⟨?_, ?_, ?_⟩
  · intro h10
    have hne : es ≠ [] := by intro h; subst h; simp at h10
    have := coreAddEvent_reach_threshold es [] []
      (by simp only [List.length_nil]; omega) hne
    simpa using this
  · intro h9
    have hfold := coreAddEvent_below_threshold es [] []
      (by simp only [List.length_nil]; omega)
    simp only [List.nil_append] at hfold
    refine ⟨hfold, ?_⟩
    rw [hfold]
    have hpos : 0 < es.length := by omega
    simp [coreTimerFlush, hpos]
  · intro h5
    have hne : es ≠ [] := by intro h; subst h; simp at h5
    have := p3AddEvent_reach_threshold es [] []
      (by simp only [List.length_nil]; omega) hne
    simpa using this

/-- Witness for C4's amended theorem on concrete event lists. -/
theorem addEvent_flush_thresholds_witness :
    (([0, 1, 2, 3, 4, 5, 6, 7, 8, 9] : List Nat).foldl coreAddEvent
        { events := [], flushes := [] } =
      { events := [], flushes := [[0, 1, 2, 3, 4, 5, 6, 7, 8, 9]] }) ∧
    ((([0, 1, 2, 3, 4, 5, 6, 7, 8] : List Nat).foldl coreAddEvent
          { events := [], flushes := [] } =
        { events := [0, 1, 2, 3, 4, 5, 6, 7, 8], flushes := [] } ∧
      coreTimerFlush (([0, 1, 2, 3, 4, 5, 6, 7, 8] : List Nat).foldl
          coreAddEvent { events := [], flushes := [] }) =
        { events := [], flushes := [[0, 1, 2, 3, 4, 5, 6, 7, 8]] })) ∧
    (([10, 11, 12, 13, 14] : List Nat).foldl p3AddEvent
        { events := [], flushes := [] } =
      { events := [], flushes := [[10, 11, 12, 13, 14]] }) :=
  ⟨(addEvent_flush_thresholds _).1 rfl,
   (addEvent_flush_thresholds _).2.1 rfl,
   (addEvent_flush_thresholds _).2.2 rfl⟩

theorem ensureSession_trace {α : Type} (st : P3State α)
    (resp : Option SessionResponse) :
    (ensureSession st resp).2 =
      if st.sessionCreated then ([] : List (P3Action α))
      else [P3Action.sessionCall] := by
  unfold ensureSession
  split
  · simp_all
  · rename_i hc
    simp only [Bool.not_eq_true] at hc
    cases resp with
    | none => simp [hc]
    | some r =>
      simp only [hc, if_false]
      split
      · cases r.id <;> rfl
      · rfl

theorem ensureSession_adopts {α : Type} (st : P3State α) (i : String)
    (h : st.sessionCreated = false) :
    (ensureSession st (some { ok := true, id := some i })).1.sessionId = i ∧
    (ensureSession st (some { ok := true, id := some i })).1.sessionCreated =
      true := by
  simp [ensureSession, h]

/-- C6: a flush of `StandLogAnalytics.sendEvents` with a non-empty
buffer always lets `ensureSession` run to completion before the
`/event` request: the request trace ends with the events call, preceded
by nothing (session already created) or by exactly the session call;
when no session exists yet, the session call strictly precedes the
events call; and when the session response carries an id, that id is
adopted — it is both the session id of the events call of this very
flush and the session id stored for all subsequent calls. -/
theorem flush_session_before_events {α : Type} (st : P3State α)
    (resp : Option SessionResponse) (aS aE : List α) (outcome : P3Outcome)
    (hne : st.events ≠ []) :
    (∃ sid payload pre, (sendEventsP3 st resp aS aE outcome).2 =
        pre ++ [P3Action.eventsCall sid payload] ∧
        (pre = [] ∨ pre = [P3Action.sessionCall])) ∧
    (st.sessionCreated = false →
      (sendEventsP3 st resp aS aE outcome).2 =
        [P3Action.sessionCall,
          P3Action.eventsCall (ensureSession st resp).1.sessionId
            (st.events ++ aS)]) ∧
    (∀ i, st.sessionCreated = false →
      resp = some { ok := true, id := some i } →
      (sendEventsP3 st resp aS aE outcome).1.sessionId = i ∧
      (sendEventsP3 st resp aS aE outcome).2 =
        [P3Action.sessionCall,
          P3Action.eventsCall i (st.events ++ aS)]) := by
  have hse : st.events.isEmpty = false := by
    cases hs : st.events with
    | nil => exact absurd hs hne
    | cons a t => rfl
  have hsid : ∀ o : P3Outcome, (sendEventsP3 st resp aS aE o).1.sessionId =
      (ensureSession st resp).1.sessionId := by
    intro o
    cases o <;> simp [sendEventsP3, hse]
  have htr : ∀ o : P3Outcome, (sendEventsP3 st resp aS aE o).2 =
      (ensureSession st resp).2 ++
        [P3Action.eventsCall (ensureSession st resp).1.sessionId
          ((ensureSession st resp).1.events ++ aS)] := by
    intro o
    cases o <;> simp [sendEventsP3, hse]
  refine ⟨?_, ?_, ?_⟩
  · refine ⟨(ensureSession st resp).1.sessionId,
      (ensureSession st resp).1.events ++ aS, (ensureSession st resp).2,
      htr outcome, ?_⟩
    rw [ensureSession_trace]
    split
    · exact Or.inl rfl
    · exact Or.inr rfl
  · intro hnc
    rw [htr outcome, ensureSession_trace, if_neg (by simp [hnc]),
      ensureSession_events]
    rfl
  · intro i hnc hresp
    subst hresp
    obtain ⟨hid, -⟩ := ensureSession_adopts st i hnc
    refine ⟨by rw [hsid outcome, hid], ?_⟩
    rw [htr outcome, ensureSession_trace, if_neg (by simp [hnc]),
      ensureSession_events, hid]
    rfl

/-- Witness for C6 at a concrete flush: one buffered event, no session
yet, and a session response carrying the canonical id. -/
theorem flush_session_before_events_witness :
    (∃ sid payload pre,
      (sendEventsP3 { events := [1], sessionId := "local", sessionCreated := false }
          (some { ok := true, id := some "srv" }) [] []
          P3Outcome.resolved).2 =
        pre ++ [P3Action.eventsCall sid payload] ∧
        (pre = [] ∨ pre = [P3Action.sessionCall])) ∧
    ((false : Bool) = false →
      (sendEventsP3 { events := [1], sessionId := "local", sessionCreated := false }
          (some { ok := true, id := some "srv" }) [] []
          P3Outcome.resolved).2 =
        [P3Action.sessionCall,
          P3Action.eventsCall
            (ensureSession
              ({ events := [1], sessionId := "local",
                 sessionCreated := false } : P3State Nat)
              (some { ok := true, id := some "srv" })).1.sessionId
            (([1] : List Nat) ++ [])]) ∧
    (∀ i, (false : Bool) = false →
      (some { ok := true, id := some "srv" } :
          Option SessionResponse) = some { ok := true, id := some i } →
      (sendEventsP3 { events := [1], sessionId := "local", sessionCreated := false }
          (some { ok := true, id := some "srv" }) [] []
          P3Outcome.resolved).1.sessionId = i ∧
      (sendEventsP3 { events := [1], sessionId := "local", sessionCreated := false }
          (some { ok := true, id := some "srv" }) [] []
          P3Outcome.resolved).2 =
        [P3Action.sessionCall,
          P3Action.eventsCall i (([1] : List Nat) ++ [])]) :=
  flush_session_before_events
    { events := [1], sessionId := "local", sessionCreated := false }
    (some { ok := true, id := some "srv" }) [] [] P3Outcome.resolved
    (by decide)

/-- C8 counterexample: the step matcher is *not* total — a step whose
URL pattern is `"[*"` makes `urlMatches` build the regex source
`"[.*"`, whose compilation throws out of `eventMatchesStep` (there is no
try/catch on this path), and `evaluateRule` throws on an `in` rule whose
operand is a number (`rule.value.includes` is not a function). -/
theorem matcher_can_throw :
    eventMatchesStep cEventPage cBadStep =
      .error "SyntaxError: unterminated character class" ∧
    evaluateRule cUser7 cRuleInNum =
      .error "TypeError: rule.value.includes is not a function" := by
  constructor
  · show eventMatchesStep cEventPage cBadStep = _
    simp only [eventMatchesStep, cEventPage, cBadStep, urlMatches]
    norm_num [jsTruthyStr, strIncludes, listIncludes, List.isPrefixOf]
    rw [if_pos ⟨rfl, rfl⟩]
    have hpr : parseRegex ((if '[' = '*' then ['.', '*'] else ['[']) ++
        ['.', '*']) = .error "SyntaxError: unterminated character class" := by
      simp [parseRegex, splitClass]
    rw [hpr]
    rfl
  · rfl

/-- C8 amended: the guarded predicates are total — selector matching
catches its errors (`false` on an absent element), an unrecognized rule
operator falls through to `false`, and a URL pattern without a wildcard
is a plain substring test that cannot throw; `between` returns a
Boolean for any operand other than `undefined` (indexing a number or a
boolean yields `undefined` and the comparisons are then false) — but
wildcard URL patterns and `in` rules are unguarded and can raise (see
the counterexample), and `between` itself throws when its operand is
`undefined`. -/
theorem guarded_predicates_total :
    (∀ selector : String, elementMatchesSelector none selector = false) ∧
    (∀ (user : UserProfile) (rule : PRule),
      rule.op ∉ ([">", "<", ">=", "<=", "=", "!=", "between", "in"] :
        List String) →
      evaluateRule user rule = .ok false) ∧
    (∀ eventUrl stepUrl : String, strIncludes stepUrl "*" = false →
      urlMatches eventUrl stepUrl = .ok (strIncludes eventUrl stepUrl)) ∧
    (∀ (user : UserProfile) (rule : PRule), rule.op = "between" →
      rule.value ≠ JSValue.undefinedV →
      ∃ b, evaluateRule user rule = .ok b) ∧
    (∀ (user : UserProfile) (rule : PRule), rule.op = "between" →
      rule.value = JSValue.undefinedV →
      evaluateRule user rule =
        .error "TypeError: Cannot read properties of undefined") := by
  refine ⟨?_, ?_, ?_, ?_, ?_⟩
  · intro selector
    rfl
  · intro user rule h
    simp only [List.mem_cons, List.not_mem_nil, or_false, not_or] at h
    obtain ⟨h1, h2, h3, h4, h5, h6, h7, h8⟩ := h
    simp [evaluateRule, h1, h2, h3, h4, h5, h6, h7, h8]
  · intro eventUrl stepUrl h
    simp [urlMatches, h]
  · intro user rule h hv
    cases hval : rule.value with
    | undefinedV => exact absurd hval hv
    | num n => simp [evaluateRule, h, hval]
    | str s => simp [evaluateRule, h, hval]
    | bool b => simp [evaluateRule, h, hval]
    | arr l => simp [evaluateRule, h, hval]
  · intro user rule h hv
    simp [evaluateRule, h, hv]

/-- Witness for C8's amended theorem at concrete inputs. -/
theorem guarded_predicates_total_witness :
    elementMatchesSelector none "#buy" = false ∧
    evaluateRule cUser7
        { metric := "pageViews", op := "matches", value := .num 5 } =
      .ok false ∧
    urlMatches "http://example.com/x" "/shop" =
      .ok (strIncludes "http://example.com/x" "/shop") ∧
    (∃ b, evaluateRule cUser7
        { metric := "pageViews", op := "between",
          value := .arr [.num 3, .num 10] } = .ok b) ∧
    evaluateRule cUser7
        { metric := "pageViews", op := "between",
          value := .undefinedV } =
      .error "TypeError: Cannot read properties of undefined" :=
  ⟨guarded_predicates_total.1 "#buy",
   guarded_predicates_total.2.1 cUser7 _ (by decide),
   guarded_predicates_total.2.2.1 _ _ (by decide),
   guarded_predicates_total.2.2.2.1 cUser7 _ rfl
     (fun hx => JSValue.noConfusion hx),
   guarded_predicates_total.2.2.2.2 cUser7 _ rfl rfl⟩

/-- C7: any profile whose current session shows 11 page views, 310000 ms
and 55 clicks satisfies all three "Power User" rules; running
`analyzeUserPersona` on such a profile in the default analyzer records
`power_user` on the profile and puts the user id in the segment's
membership set; re-evaluating after a later ingest left the session
click count at 10 removes both again. -/
theorem power_user_membership :
    (∀ (user : UserProfile) (s : PSession),
      user.currentSession = some s → s.pageViews = 11 →
      s.duration = 310000 → s.clicks = 55 →
      userMatchesPersona user powerUserPersona = .ok true) ∧
    (cRun7.2.1.personas.map (·.id) = ["power_user"] ∧
      (lookupA cRun7.1.segments "power_user").map (·.users) =
        some ["u1"]) ∧
    (cRun7b.2.1.personas.map (·.id) = [] ∧
      (lookupA cRun7b.1.segments "power_user").map (·.users) =
        some []) := by
  refine ⟨?_, by decide, by decide⟩
  intro user s hs hp hd hc
  simp [userMatchesPersona, powerUserPersona, rulesAll, evaluateRule,
    getUserMetric, hs, hp, hd, hc, jsGT, jsLT, toNumber]
  norm_num
  rfl

/-- Witness for C7's universal conjunct at the concrete profile. -/
theorem power_user_membership_witness :
    userMatchesPersona cUser7 powerUserPersona = .ok true :=
  power_user_membership.1 cUser7 cSession7 rfl rfl rfl rfl

theorem updatePageMetrics_proj (u : UserProfile) (e : PEvent) :
    (updatePageMetrics u e).sessions = u.sessions ∧
    (updatePageMetrics u e).currentSession = u.currentSession ∧
    (updatePageMetrics u e).metrics.totalSessions =
      u.metrics.totalSessions ∧
    (updatePageMetrics u e).id = u.id := by
  unfold updatePageMetrics
  rcases e.url with _ | url <;> rcases e.referrer with _ | r <;>
    simp <;> split_ifs <;> simp

theorem updateDeviceMetrics_proj (u : UserProfile) (ua : String) :
    (updateDeviceMetrics u ua).sessions = u.sessions ∧
    (updateDeviceMetrics u ua).currentSession = u.currentSession ∧
    (updateDeviceMetrics u ua).metrics.totalSessions =
      u.metrics.totalSessions ∧
    (updateDeviceMetrics u ua).id = u.id := by
  unfold updateDeviceMetrics
  simp

theorem startNewSession_proj (u : UserProfile) (e : PEvent) :
    ((startNewSession u e).sessions =
      u.sessions ++ (match u.currentSession with
        | some cs => [cs]
        | none => [])) ∧
    (startNewSession u e).currentSession.isSome = true ∧
    (startNewSession u e).metrics.totalSessions =
      u.metrics.totalSessions + 1 ∧
    (startNewSession u e).id = u.id := by
  unfold startNewSession
  rcases hcs : u.currentSession with _ | cs <;> simp [hcs]

theorem applyEventToSession_proj (u : UserProfile) (s : PSession)
    (e : PEvent) :
    (applyEventToSession u s e).metrics.totalDuration =
      sumDurations u.sessions ∧
    (applyEventToSession u s e).sessions = u.sessions ∧
    (applyEventToSession u s e).currentSession.isSome = true ∧
    (applyEventToSession u s e).metrics.totalSessions =
      u.metrics.totalSessions ∧
    (applyEventToSession u s e).id = u.id := by
  unfold applyEventToSession
  rcases e.device with _ | ua <;>
    split_ifs <;>
    simp [updatePageMetrics_proj, updateDeviceMetrics_proj]

theorem startNewSession_currentSession (u : UserProfile) (e : PEvent) :
    (startNewSession u e).currentSession = some
      { startTime := e.timestamp, lastActivity := e.timestamp,
        duration := 0, pageViews := 0, clicks := 0, conversions := 0,
        formSubmissions := 0, events := [], entryPage := e.url,
        device := e.device, referrer := e.referrer } := by
  unfold startNewSession
  rcases h : u.currentSession with _ | cs <;> simp [h]

theorem updateUserProfile_eq_keep (user : UserProfile) (event : PEvent)
    (cs : PSession) (hcs : user.currentSession = some cs)
    (hnew : ¬isNewSession cs event = true) :
    updateUserProfile user event =
      applyEventToSession { user with lastSeen := event.timestamp } cs
        event := by
  unfold updateUserProfile
  simp [hcs, hnew]

theorem updateUserProfile_eq_fresh (user : UserProfile) (event : PEvent)
    (hcs : user.currentSession = none) :
    updateUserProfile user event =
      applyEventToSession
        (startNewSession { user with lastSeen := event.timestamp } event)
        { startTime := event.timestamp, lastActivity := event.timestamp,
          duration := 0, pageViews := 0, clicks := 0, conversions := 0,
          formSubmissions := 0, events := [], entryPage := event.url,
          device := event.device, referrer := event.referrer } event := by
  unfold updateUserProfile
  simp [hcs, startNewSession_currentSession]

theorem updateUserProfile_eq_timeout (user : UserProfile) (event : PEvent)
    (cs : PSession) (hcs : user.currentSession = some cs)
    (hnew : isNewSession cs event = true) :
    updateUserProfile user event =
      applyEventToSession
        (startNewSession { user with lastSeen := event.timestamp } event)
        { startTime := event.timestamp, lastActivity := event.timestamp,
          duration := 0, pageViews := 0, clicks := 0, conversions := 0,
          formSubmissions := 0, events := [], entryPage := event.url,
          device := event.device, referrer := event.referrer } event := by
  unfold updateUserProfile
  simp [hcs, hnew, startNewSession_currentSession]

theorem updateUserProfile_shape (user : UserProfile) (event : PEvent)
    (hwf : user.metrics.totalSessions = user.sessions.length +
      (if user.currentSession.isSome then 1 else 0)) :
    (updateUserProfile user event).metrics.totalDuration =
      sumDurations (updateUserProfile user event).sessions ∧
    (updateUserProfile user event).currentSession.isSome = true ∧
    (updateUserProfile user event).metrics.totalSessions =
      (updateUserProfile user event).sessions.length + 1 := by
  rcases hcs : user.currentSession with _ | cs
  · rw [updateUserProfile_eq_fresh user event hcs]
    obtain ⟨hsess, -, hts, -⟩ := startNewSession_proj
      { user with lastSeen := event.timestamp } event
    obtain ⟨hd, hs, hsome, hts2, -⟩ := applyEventToSession_proj
      (startNewSession { user with lastSeen := event.timestamp } event)
      { startTime := event.timestamp, lastActivity := event.timestamp,
          duration := 0, pageViews := 0, clicks := 0, conversions := 0,
          formSubmissions := 0, events := [], entryPage := event.url,
          device := event.device, referrer := event.referrer } event
    simp only [hcs] at hwf hsess hts hts2 hd hs hsome ⊢
    refine ⟨by rw [hd, hs], hsome, ?_⟩
    rw [hts2, hts, hs, hsess]
    simp at hwf
    simp [hwf]
  · by_cases hnew : isNewSession cs event = true
    · rw [updateUserProfile_eq_timeout user event cs hcs hnew]
      obtain ⟨hsess, -, hts, -⟩ := startNewSession_proj
        { user with lastSeen := event.timestamp } event
      obtain ⟨hd, hs, hsome, hts2, -⟩ := applyEventToSession_proj
        (startNewSession { user with lastSeen := event.timestamp } event)
        { startTime := event.timestamp, lastActivity := event.timestamp,
          duration := 0, pageViews := 0, clicks := 0, conversions := 0,
          formSubmissions := 0, events := [], entryPage := event.url,
          device := event.device, referrer := event.referrer } event
      simp only [hcs] at hwf hsess hts hts2 hd hs hsome ⊢
      refine ⟨by rw [hd, hs], hsome, ?_⟩
      rw [hts2, hts, hs, hsess]
      simp at hwf
      simp [hwf]
    · rw [updateUserProfile_eq_keep user event cs hcs hnew]
      obtain ⟨hd, hs, hsome, hts2, -⟩ := applyEventToSession_proj
        { user with lastSeen := event.timestamp } cs event
      simp only [hcs] at hwf hts2 hd hs hsome ⊢
      refine ⟨by rw [hd, hs], hsome, ?_⟩
      rw [hts2, hs]
      simp at hwf
      simp [hwf]

theorem matchLoop_user_fields (cp : List String) (now : Int) :
    ∀ (ps : List Persona) (user : UserProfile)
      (segments : List (String × Segment)) (acc : List String),
      (matchLoop cp now ps user segments acc).1.metrics = user.metrics ∧
      (matchLoop cp now ps user segments acc).1.sessions = user.sessions ∧
      (matchLoop cp now ps user segments acc).1.currentSession =
        user.currentSession ∧
      (matchLoop cp now ps user segments acc).1.id = user.id := by
  intro ps
  induction ps with
  | nil => intro user segments acc; simp [matchLoop]
  | cons p t ih =>
    intro user segments acc
    simp only [matchLoop]
    cases userMatchesPersona user p with
    | error e => simp
    | ok b =>
      cases b with
      | false => simpa using ih user segments acc
      | true =>
        simp only
        by_cases hin : p.id ∈ cp
        · simpa [hin] using ih user segments (setAdd acc p.id)
        · simp only [hin, if_false]
          cases lookupA segments p.id with
          | none => simp
          | some seg => simpa [hin] using ih _ _ (setAdd acc p.id)

theorem updatePersonaMetrics_users (an : PAnalyzer) (now : Int) :
    (updatePersonaMetrics an now).users = an.users := rfl

theorem analyzeUserPersona_user_fields (an : PAnalyzer) (key : String)
    (user : UserProfile) (now : Int) :
    ((analyzeUserPersona an key user now).2.1.metrics = user.metrics ∧
     (analyzeUserPersona an key user now).2.1.sessions = user.sessions ∧
     (analyzeUserPersona an key user now).2.1.currentSession =
       user.currentSession ∧
     (analyzeUserPersona an key user now).2.1.id = user.id) ∧
    lookupA (analyzeUserPersona an key user now).1.users key =
      some (analyzeUserPersona an key user now).2.1 := by
  unfold analyzeUserPersona
  rcases hml : matchLoop (user.personas.map (·.id)) now an.personas user
    an.segments [] with ⟨u1, segs1, np1, err1⟩
  obtain ⟨hm, hs, hc, hid⟩ := matchLoop_user_fields
    (user.personas.map (·.id)) now an.personas user an.segments []
  rw [hml] at hm hs hc hid
  simp only at hm hs hc hid
  cases err1 with
  | some e =>
    simp only [hml]
    exact ⟨⟨hm, hs, hc, hid⟩, lookupA_insertA_self _ _ _⟩
  | none =>
    simp only [hml]
    rcases hrl : removalLoop u1.id np1 u1.personas segs1 with
      ⟨kept, segs2, err2⟩
    cases err2 with
    | some e =>
      simp only
      exact ⟨⟨hm, hs, hc, hid⟩, lookupA_insertA_self _ _ _⟩
    | none =>
      simp only [updatePersonaMetrics_users]
      exact ⟨⟨hm, hs, hc, hid⟩, lookupA_insertA_self _ _ _⟩

/-- C10: after every `addUserEvent`, the stored profile's
`metrics.totalDuration` is the sum of the durations of the *archived*
sessions only (`user.sessions`), the in-progress `currentSession` being
excluded, while `metrics.totalSessions` also counts the current
session — so the all-time `sessionDuration` metric of `getUserMetric`
divides the archived-only numerator by a denominator that includes the
current session. -/
theorem totalDuration_archived_only (an : PAnalyzer) (uid : String)
    (event : PEvent) (now : Int)
    (hwf : ∀ u, lookupA an.users uid = some u →
      u.metrics.totalSessions = u.sessions.length +
        (if u.currentSession.isSome then 1 else 0)) :
    ∀ u', lookupA (addUserEvent an uid event now).1.users uid = some u' →
      u'.metrics.totalDuration = sumDurations u'.sessions ∧
      u'.currentSession.isSome = true ∧
      u'.metrics.totalSessions = u'.sessions.length + 1 ∧
      getUserMetric u' "sessionDuration" "all" =
        .num ((sumDurations u'.sessions : Rat) /
          ((u'.sessions.length : Rat) + 1)) := by
  intro u' hu'
  -- the base profile is well-formed, whether found or freshly created
  have hwf0 : ∀ u0, (match lookupA an.users uid with
      | some u => u
      | none => createUserProfile uid now) = u0 →
      u0.metrics.totalSessions = u0.sessions.length +
        (if u0.currentSession.isSome then 1 else 0) := by
    intro u0 h0
    cases hl : lookupA an.users uid with
    | some u => rw [hl] at h0; subst h0; exact hwf u hl
    | none => rw [hl] at h0; subst h0; simp [createUserProfile]
  -- unfold addUserEvent and identify u'
  simp only [addUserEvent] at hu'
  rcases hap : analyzeUserPersona
    { an with users := insertA an.users uid (updateUserProfile
        (match lookupA an.users uid with
          | some u => u
          | none => createUserProfile uid now) event) }
    uid (updateUserProfile (match lookupA an.users uid with
        | some u => u
        | none => createUserProfile uid now) event) now with ⟨an2, u2, err⟩
  obtain ⟨⟨hm, hs, hc, -⟩, hlook⟩ := analyzeUserPersona_user_fields
    { an with users := insertA an.users uid (updateUserProfile
        (match lookupA an.users uid with
          | some u => u
          | none => createUserProfile uid now) event) }
    uid (updateUserProfile (match lookupA an.users uid with
        | some u => u
        | none => createUserProfile uid now) event) now
  rw [hap] at hlook hm hs hc hu'
  simp only at hlook hm hs hc hu'
  rw [hlook] at hu'
  injection hu' with hu'
  subst hu'
  obtain ⟨hd, hsome, hts⟩ := updateUserProfile_shape _ event (hwf0 _ rfl)
  refine ⟨?_, ?_, ?_, ?_⟩
  · rw [hm, hs, hd]
  · rw [hc]
    exact hsome
  · rw [hm, hs, hts]
  · have h1 : u2.metrics.totalDuration = sumDurations u2.sessions := by
      rw [hm, hs, hd]
    have h2 : u2.metrics.totalSessions = u2.sessions.length + 1 := by
      rw [hm, hs, hts]
    simp only [getUserMetric]
    norm_num
    rw [h1, h2]
    push_cast
    ring_nf


/-- Witness for C10 at a concrete ingest. -/
theorem totalDuration_archived_only_witness :
    cUserC10.metrics.totalDuration = sumDurations cUserC10.sessions ∧
    cUserC10.currentSession.isSome = true ∧
    cUserC10.metrics.totalSessions = cUserC10.sessions.length + 1 ∧
    getUserMetric cUserC10 "sessionDuration" "all" =
      .num ((sumDurations cUserC10.sessions : Rat) /
        ((cUserC10.sessions.length : Rat) + 1)) :=
  totalDuration_archived_only defaultPAnalyzer "u9" cEventC10 100
    (by
      intro u h
      rw [show defaultPAnalyzer.users = [] from rfl] at h
      simp [lookupA] at h)
    cUserC10 (by rfl)

theorem modifyAt_length {α : Type} (l : List α) (i : Nat) (f : α → α) :
    (modifyAt l i f).length = l.length := by
  induction l generalizing i with
  | nil => rfl
  | cons a t ih =>
    cases i with
    | zero => rfl
    | succ j => simp [modifyAt, ih]

theorem modifyAt_get? {α : Type} (l : List α) (i : Nat) (f : α → α)
    (j : Nat) :
    (modifyAt l i f).get? j =
      if j = i then (l.get? j).map f else l.get? j := by
  induction l generalizing i j with
  | nil => simp [modifyAt]
  | cons a t ih =>
    cases i with
    | zero =>
      cases j with
      | zero => simp [modifyAt]
      | succ j' => simp [modifyAt]
    | succ i' =>
      cases j with
      | zero => simp [modifyAt]
      | succ j' => simpa [modifyAt] using ih i' j'

theorem convFromPrev_length (l : List StepStats) (i : Nat) :
    (convFromPrev l i).length = l.length := by
  unfold convFromPrev
  split <;> simp [modifyAt_length]

theorem convFromPrev_reached (l : List StepStats) (i j : Nat) :
    ((convFromPrev l i).get? j).map (·.reached) =
      (l.get? j).map (·.reached) := by
  unfold convFromPrev
  split
  · rw [modifyAt_get?]
    split
    · rename_i hji
      subst hji
      cases l.get? j <;> simp
    · rfl
  · rfl

theorem updateFunnelStats_len (N : Nat) (stats : FunnelStats) (i : Nat) :
    (updateFunnelStats N stats i).steps.length = stats.steps.length := by
  unfold updateFunnelStats
  split_ifs <;> simp [convFromPrev_length, modifyAt_length]

theorem updateFunnelStats_reached (N : Nat) (stats : FunnelStats)
    (i j : Nat) :
    reachedAt (updateFunnelStats N stats i) j =
      if j = i then
        ((stats.steps.get? j).map (fun s => s.reached + 1)).getD 0
      else reachedAt stats j := by
  unfold updateFunnelStats reachedAt
  split_ifs <;>
    (try rw [convFromPrev_reached]) <;>
    rw [modifyAt_get?] <;>
    split <;>
    first
      | omega
      | rfl
      | (cases hsj : stats.steps.get? j <;> simp [hsj])

theorem processStepCompletion_inv (funnel : Funnel) (s : FSession)
    (st : FunnelStats) (i : Nat) (e : FEvent) (c : Nat → Nat)
    (hbt : funnel.options.allowBacktrack = false)
    (hlen : st.steps.length = funnel.steps.length)
    (hi : i < funnel.steps.length)
    (hconn : ∀ j, j < funnel.steps.length →
      reachedAt st j = c j + stepInd s j) :
    (processStepCompletion funnel s st i e).2.steps.length =
      funnel.steps.length ∧
    ∀ j, j < funnel.steps.length →
      reachedAt (processStepCompletion funnel s st i e).2 j =
        c j + stepInd (processStepCompletion funnel s st i e).1 j := by
  by_cases hadv : (i : Int) = s.currentStep + 1
  · have hcur : (processStepCompletion funnel s st i e).1.currentStep =
        (i : Int) := by
      simp only [processStepCompletion, if_pos hadv]
      split <;> simp
    have hst2 : (processStepCompletion funnel s st i e).2 =
        updateFunnelStats funnel.steps.length st i := by
      simp only [processStepCompletion, if_pos hadv]
      try rfl
    rw [hst2]
    refine ⟨by rw [updateFunnelStats_len, hlen], ?_⟩
    intro j hj
    rw [updateFunnelStats_reached]
    unfold stepInd
    rw [hcur]
    by_cases hji : j = i
    · subst hji
      rw [if_pos rfl, if_pos (le_refl _)]
      have hjlen : j < st.steps.length := by rw [hlen]; exact hj
      have hc := hconn j hj
      unfold reachedAt stepInd at hc
      rw [List.get?_eq_get hjlen] at hc ⊢
      rw [if_neg (by omega : ¬((j : Int) ≤ s.currentStep))] at hc
      simp at hc ⊢
      omega
    · rw [if_neg hji]
      have hc := hconn j hj
      unfold stepInd at hc
      rw [hc]
      congr 1
      split_ifs <;> omega
  · have h2 : ¬(funnel.options.allowBacktrack = true ∧
        (i : Int) < s.currentStep + 1) := by
      rintro ⟨hbt', -⟩
      rw [hbt] at hbt'
      exact Bool.false_ne_true hbt'
    have hne : processStepCompletion funnel s st i e = (s, st) := by
      simp [processStepCompletion, hadv, h2]
    rw [hne]
    exact ⟨hlen, hconn⟩

theorem processSteps_inv (funnel : Funnel) (e : FEvent) (c : Nat → Nat)
    (hbt : funnel.options.allowBacktrack = false) :
    ∀ (steps : List (Nat × Step)) (s : FSession) (st : FunnelStats),
      (∀ p ∈ steps, p.1 < funnel.steps.length) →
      st.steps.length = funnel.steps.length →
      (∀ j, j < funnel.steps.length →
        reachedAt st j = c j + stepInd s j) →
      ((processSteps funnel steps s st e).1.2.steps.length =
        funnel.steps.length ∧
       ∀ j, j < funnel.steps.length →
         reachedAt (processSteps funnel steps s st e).1.2 j =
           c j + stepInd (processSteps funnel steps s st e).1.1 j) := by
  intro steps
  induction steps with
  | nil =>
    intro s st hmem hlen hconn
    exact ⟨hlen, hconn⟩
  | cons p rest ih =>
    intro s st hmem hlen hconn
    obtain ⟨i, stp⟩ := p
    simp only [processSteps]
    cases eventMatchesStep e stp with
    | error err => exact ⟨hlen, hconn⟩
    | ok b =>
      cases b with
      | false =>
        simp only [if_neg (Bool.false_ne_true)]
        exact ih s st (fun q hq => hmem q (List.mem_cons_of_mem _ hq))
          hlen hconn
      | true =>
        simp only [if_pos rfl]
        have hi : i < funnel.steps.length :=
          hmem (i, stp) (List.mem_cons_self _ _)
        obtain ⟨hlen', hconn'⟩ :=
          processStepCompletion_inv funnel s st i e c hbt hlen hi hconn
        exact ih _ _ (fun q hq => hmem q (List.mem_cons_of_mem _ hq))
          hlen' hconn'

theorem lookupA_split {α : Type} (l : List (String × α)) (k : String)
    (v : α) (h : lookupA l k = some v) :
    ∃ l1 l2, l = l1 ++ (k, v) :: l2 ∧ ∀ p ∈ l1, p.1 ≠ k := by
  induction l with
  | nil => simp [lookupA] at h
  | cons p t ih =>
    obtain ⟨k0, v0⟩ := p
    by_cases hk : k0 = k
    · subst hk
      simp [lookupA] at h
      subst h
      exact ⟨[], t, rfl, by simp⟩
    · simp only [lookupA, if_neg hk] at h
      obtain ⟨l1, l2, heq, hne⟩ := ih h
      refine ⟨(k0, v0) :: l1, l2, by simp [heq], ?_⟩
      intro q hq
      rcases List.mem_cons.mp hq with h1 | h2
      · subst h1; exact hk
      · exact hne q h2

theorem lookupA_none_keys {α : Type} (l : List (String × α)) (k : String)
    (h : lookupA l k = none) : ∀ p ∈ l, p.1 ≠ k := by
  induction l with
  | nil => simp
  | cons p t ih =>
    obtain ⟨k0, v0⟩ := p
    by_cases hk : k0 = k
    · subst hk; simp [lookupA] at h
    · simp only [lookupA, if_neg hk] at h
      intro q hq
      rcases List.mem_cons.mp hq with h1 | h2
      · subst h1; exact hk
      · exact ih h q h2

theorem insertA_split {α : Type} (l1 l2 : List (String × α)) (k : String)
    (v v' : α) (hne : ∀ p ∈ l1, p.1 ≠ k) :
    insertA (l1 ++ (k, v) :: l2) k v' = l1 ++ (k, v') :: l2 := by
  induction l1 with
  | nil => simp [insertA]
  | cons p t ih =>
    obtain ⟨k0, v0⟩ := p
    have hk : k0 ≠ k := hne (k0, v0) (List.mem_cons_self _ _)
    simp only [List.cons_append, insertA, if_neg hk, List.cons.injEq,
      true_and]
    exact ih (fun q hq => hne q (List.mem_cons_of_mem _ hq))

theorem insertA_notfound {α : Type} (l : List (String × α)) (k : String)
    (v : α) (h : lookupA l k = none) : insertA l k v = l ++ [(k, v)] := by
  induction l with
  | nil => rfl
  | cons p t ih =>
    obtain ⟨k0, v0⟩ := p
    by_cases hk : k0 = k
    · subst hk; simp [lookupA] at h
    · simp only [lookupA, if_neg hk] at h
      simp [insertA, hk, ih h]

theorem countGE_append (a b : List (String × FSession)) (i : Nat) :
    countGE (a ++ b) i = countGE a i + countGE b i := by
  simp [countGE, List.filter_append]

theorem countGE_cons (p : String × FSession)
    (t : List (String × FSession)) (i : Nat) :
    countGE (p :: t) i = stepInd p.2 i + countGE t i := by
  simp only [countGE, stepInd, List.filter_cons]
  split_ifs with h1 h2 h3 <;> simp_all <;> omega

theorem countGE_nil (i : Nat) : countGE [] i = 0 := rfl

theorem stepInd_mono (s : FSession) (i : Nat) :
    stepInd s (i + 1) ≤ stepInd s i := by
  unfold stepInd
  split_ifs <;> omega

theorem countGE_antitone (l : List (String × FSession)) (i : Nat) :
    countGE l (i + 1) ≤ countGE l i := by
  induction l with
  | nil => simp [countGE_nil]
  | cons p t ih =>
    rw [countGE_cons, countGE_cons]
    have := stepInd_mono p.2 i
    omega

theorem enum_fst_lt {α : Type} (l : List α) (p : Nat × α)
    (hp : p ∈ l.enum) : p.1 < l.length := by
  have h := List.mem_enum_iff_getElem?.mp hp
  exact (List.getElem?_eq_some.mp h).1

theorem pushEvent_currentStep (s : FSession) (e : FEvent) :
    (pushEvent s e).currentStep = s.currentStep := rfl

theorem checkFunnelStep_inv (funnel : Funnel) (fd : FunnelData)
    (e : FEvent) (hbt : funnel.options.allowBacktrack = false)
    (hinv : FunnelInv funnel fd) :
    FunnelInv funnel (checkFunnelStep funnel fd e).1 := by
  obtain ⟨hlen, hconn⟩ := hinv
  cases hl : lookupA fd.sessions e.sessionId with
  | some s0 =>
    obtain ⟨l1, l2, heq, hne⟩ := lookupA_split _ _ _ hl
    simp only [checkFunnelStep, hl, Option.getD_some]
    have hconn1 : ∀ j, j < funnel.steps.length →
        reachedAt fd.stats j = (countGE l1 j + countGE l2 j) +
          stepInd (pushEvent s0 e) j := by
      intro j hj
      have h1 := hconn j hj
      rw [heq, countGE_append, countGE_cons] at h1
      have hind : stepInd (pushEvent s0 e) j = stepInd s0 j := by
        simp [stepInd, pushEvent_currentStep]
      rw [hind]
      simp only at h1
      omega
    obtain ⟨hlen', hconn'⟩ := processSteps_inv funnel e
      (fun j => countGE l1 j + countGE l2 j) hbt funnel.steps.enum
      (pushEvent s0 e) fd.stats
      (fun p hp => enum_fst_lt _ p hp) hlen hconn1
    refine ⟨hlen', ?_⟩
    intro j hj
    have h2 := hconn' j hj
    simp only at h2 ⊢
    rw [heq, insertA_split l1 l2 _ s0 _ hne, countGE_append, countGE_cons]
    simp only
    omega
  | none =>
    have hnek := lookupA_none_keys _ _ hl
    have hins := insertA_notfound fd.sessions e.sessionId (newFSession e) hl
    have hlook2 : lookupA (insertA fd.sessions e.sessionId (newFSession e))
        e.sessionId = some (newFSession e) :=
      lookupA_insertA_self _ _ _
    simp only [checkFunnelStep, hl, hlook2, Option.getD_some]
    have hconn1 : ∀ j, j < funnel.steps.length →
        reachedAt fd.stats j = (countGE fd.sessions j + countGE [] j) +
          stepInd (pushEvent (newFSession e) e) j := by
      intro j hj
      have h1 := hconn j hj
      have hind : stepInd (pushEvent (newFSession e) e) j = 0 := by
        simp only [stepInd, pushEvent_currentStep, newFSession]
        rw [if_neg (by omega)]
      rw [hind, countGE_nil]
      omega
    obtain ⟨hlen', hconn'⟩ := processSteps_inv funnel e
      (fun j => countGE fd.sessions j + countGE [] j) hbt funnel.steps.enum
      (pushEvent (newFSession e) e) fd.stats
      (fun p hp => enum_fst_lt _ p hp) hlen hconn1
    refine ⟨hlen', ?_⟩
    intro j hj
    have h2 := hconn' j hj
    simp only [countGE_nil] at h2 ⊢
    rw [hins, insertA_split fd.sessions [] _ (newFSession e) _ hnek,
      countGE_append, countGE_cons, countGE_nil]
    simp only
    omega

theorem initFunnelData_inv (funnel : Funnel) :
    FunnelInv funnel (initFunnelData funnel) := by
  constructor
  · simp [initFunnelData, initFunnelStats]
  · intro i hi
    simp [initFunnelData, initFunnelStats, reachedAt, countGE,
      List.getElem?_map, List.getElem?_range hi]

theorem runFunnelEvents_inv (funnel : Funnel)
    (hbt : funnel.options.allowBacktrack = false) (events : List FEvent) :
    ∀ fd, FunnelInv funnel fd →
      FunnelInv funnel (runFunnelEvents funnel fd events) := by
  induction events with
  | nil => intro fd h; exact h
  | cons e t ih =>
    intro fd h
    simp only [runFunnelEvents, List.foldl_cons]
    exact ih (runFunnelEvent funnel fd e)
      (checkFunnelStep_inv funnel fd e hbt h)

/-- C5 counterexample: with backtracking allowed, the sequence
step0, step1, step0 (backtrack), step1 (re-advance) on a 2-step funnel
double-counts `reached[1]`: the final counters are `reached = [1, 2]`,
violating `reached[i] ≥ reached[i+1]`. -/
theorem funnel_shape_violated_by_backtrack :
    reachedAt (runFunnelEvents cFunnelBack (initFunnelData cFunnelBack)
        [cEventA, cEventB, cEventA, cEventB]).stats 0 = 1 ∧
    reachedAt (runFunnelEvents cFunnelBack (initFunnelData cFunnelBack)
        [cEventA, cEventB, cEventA, cEventB]).stats 1 = 2 ∧
    ¬(reachedAt (runFunnelEvents cFunnelBack (initFunnelData cFunnelBack)
          [cEventA, cEventB, cEventA, cEventB]).stats 1 ≤
        reachedAt (runFunnelEvents cFunnelBack (initFunnelData cFunnelBack)
          [cEventA, cEventB, cEventA, cEventB]).stats 0) := by
  decide

/-- C5 amended: for every funnel with backtracking *disabled* and every
event sequence, the per-step `reached` counters are monotonically
non-increasing: `reached[i] ≥ reached[i+1]` for every adjacent pair.
(With backtracking allowed, re-advancing after a regression increments
`reached` again and can break the shape — see the counterexample.) -/
theorem funnel_shape_monotone (funnel : Funnel)
    (hbt : funnel.options.allowBacktrack = false) (events : List FEvent)
    (i : Nat) :
    reachedAt (runFunnelEvents funnel (initFunnelData funnel)
        events).stats (i + 1) ≤
      reachedAt (runFunnelEvents funnel (initFunnelData funnel)
        events).stats i := by
  obtain ⟨hlen, hconn⟩ := runFunnelEvents_inv funnel hbt events
    (initFunnelData funnel) (initFunnelData_inv funnel)
  by_cases hi1 : i + 1 < funnel.steps.length
  · rw [hconn _ hi1, hconn _ (by omega)]
    exact countGE_antitone _ _
  · have hz : reachedAt (runFunnelEvents funnel (initFunnelData funnel)
        events).stats (i + 1) = 0 := by
      unfold reachedAt
      rw [List.get?_eq_none.mpr (by rw [hlen]; omega)]
      rfl
    rw [hz]
    exact Nat.zero_le _

/-- Witness for C5's amended theorem on a concrete no-backtrack run. -/
theorem funnel_shape_monotone_witness :
    reachedAt (runFunnelEvents cFunnel3 (initFunnelData cFunnel3)
        [cEventA, cEventB]).stats 1 ≤
      reachedAt (runFunnelEvents cFunnel3 (initFunnelData cFunnel3)
        [cEventA, cEventB]).stats 0 :=
  funnel_shape_monotone cFunnel3 rfl [cEventA, cEventB] 0

theorem mem_setAdd (l : List String) (x y : String) :
    y ∈ setAdd l x ↔ y ∈ l ∨ y = x := by
  unfold setAdd
  split_ifs with h
  · constructor
    · exact Or.inl
    · rintro (hy | rfl)
      · exact hy
      · exact h
  · simp

theorem mem_setDelete (l : List String) (x y : String) :
    y ∈ setDelete l x ↔ y ∈ l ∧ y ≠ x := by
  simp [setDelete, List.mem_filter]

theorem memSeg_insertA_same (segs : List (String × Segment)) (k : String)
    (seg : Segment) (v : String) :
    memSeg (insertA segs k seg) k v ↔ v ∈ seg.users := by
  simp [memSeg, lookupA_insertA_self]

theorem memSeg_insertA_other (segs : List (String × Segment))
    (k q : String) (seg : Segment) (v : String) (h : q ≠ k) :
    memSeg (insertA segs k seg) q v ↔ memSeg segs q v := by
  simp [memSeg, lookupA_insertA_ne _ _ _ _ h]

theorem lookupA_insertA_isSome {α : Type} (l : List (String × α))
    (k q : String) (v : α) (h : (lookupA l q).isSome = true) :
    (lookupA (insertA l k v) q).isSome = true := by
  by_cases hqk : q = k
  · subst hqk
    rw [lookupA_insertA_self]
    rfl
  · rw [lookupA_insertA_ne _ _ _ _ hqk]
    exact h


theorem memSeg_of_lookup (segs : List (String × Segment)) (q v : String)
    (seg : Segment) (h : lookupA segs q = some seg) :
    memSeg segs q v ↔ v ∈ seg.users := by
  simp [memSeg, h]

theorem matchLoop_cons_error (cp : List String) (now : Int) (p : Persona)
    (rest : List Persona) (user : UserProfile)
    (segs : List (String × Segment)) (acc : List String) (e : String)
    (hm : userMatchesPersona user p = .error e) :
    matchLoop cp now (p :: rest) user segs acc =
      (user, segs, acc, some e) := by
  simp [matchLoop, hm]

theorem matchLoop_cons_false (cp : List String) (now : Int) (p : Persona)
    (rest : List Persona) (user : UserProfile)
    (segs : List (String × Segment)) (acc : List String)
    (hm : userMatchesPersona user p = .ok false) :
    matchLoop cp now (p :: rest) user segs acc =
      matchLoop cp now rest user segs acc := by
  simp [matchLoop, hm]

theorem matchLoop_cons_old (cp : List String) (now : Int) (p : Persona)
    (rest : List Persona) (user : UserProfile)
    (segs : List (String × Segment)) (acc : List String)
    (hm : userMatchesPersona user p = .ok true) (hin : p.id ∈ cp) :
    matchLoop cp now (p :: rest) user segs acc =
      matchLoop cp now rest user segs (setAdd acc p.id) := by
  simp [matchLoop, hm, hin]

theorem matchLoop_cons_new (cp : List String) (now : Int) (p : Persona)
    (rest : List Persona) (user : UserProfile)
    (segs : List (String × Segment)) (acc : List String) (seg : Segment)
    (hm : userMatchesPersona user p = .ok true) (hin : p.id ∉ cp)
    (hl : lookupA segs p.id = some seg) :
    matchLoop cp now (p :: rest) user segs acc =
      matchLoop cp now rest
        { user with personas := user.personas ++
            [{ id := p.id, assignedAt := now,
               confidence := calculatePersonaConfidence user p }] }
        (insertA segs p.id
          { seg with users := setAdd seg.users user.id })
        (setAdd acc p.id) := by
  simp [matchLoop, hm, hin, hl]

theorem matchLoop_cons_noseg (cp : List String) (now : Int) (p : Persona)
    (rest : List Persona) (user : UserProfile)
    (segs : List (String × Segment)) (acc : List String)
    (hm : userMatchesPersona user p = .ok true) (hin : p.id ∉ cp)
    (hl : lookupA segs p.id = none) :
    matchLoop cp now (p :: rest) user segs acc =
      ({ user with personas := user.personas ++
           [{ id := p.id, assignedAt := now,
              confidence := calculatePersonaConfidence user p }] },
        segs, setAdd acc p.id,
        some "TypeError: segment is undefined") := by
  simp [matchLoop, hm, hin, hl]

theorem matchLoop_effects (cp : List String) (now : Int) :
    ∀ (ps : List Persona) (user : UserProfile)
      (segs : List (String × Segment)) (acc : List String),
      (∀ p ∈ ps, (lookupA segs p.id).isSome = true) →
      (∀ q ∈ cp, q ∈ user.personas.map PersonaAssignment.id) →
      ((∀ q : String,
          (q ∈ user.personas.map PersonaAssignment.id ↔
            memSeg segs q user.id) →
          (q ∈ (matchLoop cp now ps user segs acc).1.personas.map
              PersonaAssignment.id ↔
            memSeg (matchLoop cp now ps user segs acc).2.1 q user.id)) ∧
        (∀ q v, v ≠ user.id →
          (memSeg (matchLoop cp now ps user segs acc).2.1 q v ↔
            memSeg segs q v)) ∧
        (∀ q, (lookupA segs q).isSome = true →
          (lookupA (matchLoop cp now ps user segs acc).2.1 q).isSome =
            true) ∧
        (∀ q, q ∈ user.personas.map PersonaAssignment.id →
          q ∈ (matchLoop cp now ps user segs acc).1.personas.map
            PersonaAssignment.id) ∧
        (∀ q, q ∈ (matchLoop cp now ps user segs acc).1.personas.map
            PersonaAssignment.id →
          q ∈ user.personas.map PersonaAssignment.id ∨
            q ∈ ps.map Persona.id) ∧
        (∀ q, q ∈ (matchLoop cp now ps user segs acc).2.2.1 →
          q ∈ acc ∨
            q ∈ (matchLoop cp now ps user segs acc).1.personas.map
              PersonaAssignment.id)) := by
  intro ps
  induction ps with
  | nil =>
    intro user segs acc _ _
    exact ⟨fun q h => h, fun q v _ => Iff.rfl, fun q h => h,
      fun q h => h, fun q h => Or.inl h, fun q hq => Or.inl hq⟩
  | cons p rest ih =>
    intro user segs acc Hseg Hcp
    cases hm : userMatchesPersona user p with
    | error e =>
      rw [matchLoop_cons_error cp now p rest user segs acc e hm]
      exact ⟨fun q h => h, fun q v _ => Iff.rfl, fun q h => h,
        fun q h => h, fun q h => Or.inl h, fun q hq => Or.inl hq⟩
    | ok b =>
      cases b with
      | false =>
        rw [matchLoop_cons_false cp now p rest user segs acc hm]
        obtain ⟨ih1, ih2, ih3, ih4, ih5, ih6⟩ := ih user segs acc
          (fun p' hp' => Hseg p' (List.mem_cons_of_mem _ hp')) Hcp
        refine ⟨ih1, ih2, ih3, ih4, ?_, ih6⟩
        intro q hq
        rcases ih5 q hq with h | h
        · exact Or.inl h
        · exact Or.inr
            (by rw [List.map_cons]; exact List.mem_cons_of_mem _ h)
      | true =>
        by_cases hin : p.id ∈ cp
        · rw [matchLoop_cons_old cp now p rest user segs acc hm hin]
          obtain ⟨ih1, ih2, ih3, ih4, ih5, ih6⟩ := ih user segs
            (setAdd acc p.id)
            (fun p' hp' => Hseg p' (List.mem_cons_of_mem _ hp')) Hcp
          refine ⟨ih1, ih2, ih3, ih4, ?_, ?_⟩
          · intro q hq
            rcases ih5 q hq with h | h
            · exact Or.inl h
            · exact Or.inr
                (by rw [List.map_cons]; exact List.mem_cons_of_mem _ h)
          · intro q hq
            rcases ih6 q hq with h | h
            · rcases (mem_setAdd acc p.id q).mp h with h' | rfl
              · exact Or.inl h'
              · exact Or.inr (ih4 _ (Hcp _ hin))
            · exact Or.inr h
        · cases hl : lookupA segs p.id with
          | none =>
            exact absurd (Hseg p (List.mem_cons_self _ _))
              (by simp [hl])
          | some seg =>
            rw [matchLoop_cons_new cp now p rest user segs acc seg
              hm hin hl]
            obtain ⟨ih1, ih2, ih3, ih4, ih5, ih6⟩ :=
              ih { user with personas := user.personas ++
                    [{ id := p.id, assignedAt := now,
                       confidence := calculatePersonaConfidence user p }] }
                (insertA segs p.id
                  { seg with users := setAdd seg.users user.id })
                (setAdd acc p.id)
                (fun p' hp' => lookupA_insertA_isSome _ _ _ _
                  (Hseg p' (List.mem_cons_of_mem _ hp')))
                (fun q hq => by
                  simp only [List.map_append, List.mem_append]
                  exact Or.inl (Hcp q hq))
            refine ⟨?_, ?_, ?_, ?_, ?_, ?_⟩
            · intro q h
              refine ih1 q ?_
              by_cases hq : q = p.id
              · subst hq
                simp only [List.map_append, List.mem_append,
                  List.map_cons, List.map_nil, List.mem_singleton]
                rw [show ({ user with personas := user.personas ++
                    [{ id := p.id, assignedAt := now,
                       confidence :=
                         calculatePersonaConfidence user p }] } :
                    UserProfile).id = user.id from rfl,
                  memSeg_insertA_same, mem_setAdd]
                simp
              · simp only [List.map_append, List.mem_append,
                  List.map_cons, List.map_nil, List.mem_singleton]
                rw [show ({ user with personas := user.personas ++
                    [{ id := p.id, assignedAt := now,
                       confidence :=
                         calculatePersonaConfidence user p }] } :
                    UserProfile).id = user.id from rfl,
                  memSeg_insertA_other _ _ _ _ _ hq]
                simp only [hq, or_false]
                exact h
            · intro q v hv
              rw [ih2 q v hv]
              by_cases hq : q = p.id
              · subst hq
                rw [memSeg_insertA_same, mem_setAdd,
                  memSeg_of_lookup segs p.id v seg hl]
                simp [hv]
              · rw [memSeg_insertA_other _ _ _ _ _ hq]
            · intro q hq
              exact ih3 q (lookupA_insertA_isSome _ _ _ _ hq)
            · intro q hq
              refine ih4 q ?_
              simp only [List.map_append, List.mem_append]
              exact Or.inl hq
            · intro q hq
              rcases ih5 q hq with h | h
              · simp only [List.map_append, List.mem_append,
                  List.map_cons, List.map_nil, List.mem_singleton] at h
                rcases h with h | rfl
                · exact Or.inl h
                · exact Or.inr (by simp)
              · exact Or.inr
                  (by rw [List.map_cons]; exact List.mem_cons_of_mem _ h)
            · intro q hq
              rcases ih6 q hq with h | h
              · rcases (mem_setAdd acc p.id q).mp h with h' | rfl
                · exact Or.inl h'
                · refine Or.inr (ih4 _ ?_)
                  simp [List.map_append]
              · exact Or.inr h

theorem removalLoop_cons_kept (uid : String) (np : List String)
    (a : PersonaAssignment) (rest : List PersonaAssignment)
    (segs : List (String × Segment)) (h : a.id ∈ np) :
    removalLoop uid np (a :: rest) segs =
      (a :: (removalLoop uid np rest segs).1,
        (removalLoop uid np rest segs).2) := by
  rcases hR : removalLoop uid np rest segs with ⟨kept, segs2, err⟩
  simp [removalLoop, h, hR]

theorem removalLoop_cons_del (uid : String) (np : List String)
    (a : PersonaAssignment) (rest : List PersonaAssignment)
    (segs : List (String × Segment)) (seg : Segment) (h : a.id ∉ np)
    (hl : lookupA segs a.id = some seg) :
    removalLoop uid np (a :: rest) segs =
      removalLoop uid np rest
        (insertA segs a.id
          { seg with users := setDelete seg.users uid }) := by
  simp [removalLoop, h, hl]

theorem removalLoop_effects (uid : String) (np : List String) :
    ∀ (assigns : List PersonaAssignment)
      (segs : List (String × Segment)),
      (∀ a ∈ assigns, (lookupA segs a.id).isSome = true) →
      ((removalLoop uid np assigns segs).2.2 = none ∧
       (∀ q, q ∈ (removalLoop uid np assigns segs).1.map
            PersonaAssignment.id ↔
          q ∈ assigns.map PersonaAssignment.id ∧ q ∈ np) ∧
       (∀ q, memSeg (removalLoop uid np assigns segs).2.1 q uid ↔
          memSeg segs q uid ∧
            (q ∈ np ∨ q ∉ assigns.map PersonaAssignment.id)) ∧
       (∀ q v, v ≠ uid →
          (memSeg (removalLoop uid np assigns segs).2.1 q v ↔
            memSeg segs q v))) := by
  intro assigns
  induction assigns with
  | nil =>
    intro segs _
    refine ⟨rfl, by simp [removalLoop], ?_, fun q v _ => Iff.rfl⟩
    intro q
    simp [removalLoop]
  | cons a rest ih =>
    intro segs Hseg
    by_cases ha : a.id ∈ np
    · rw [removalLoop_cons_kept uid np a rest segs ha]
      obtain ⟨ih0, ih1, ih2, ih3⟩ := ih segs
        (fun a' ha' => Hseg a' (List.mem_cons_of_mem _ ha'))
      refine ⟨ih0, ?_, ?_, ih3⟩
      · intro q
        by_cases hq : q = a.id
        · subst hq
          simp [ha]
        · simp only [List.map_cons, List.mem_cons, ih1 q]
          simp [hq]
      · intro q
        rw [ih2 q]
        by_cases hq : q = a.id
        · subst hq
          simp [ha]
        · simp [List.mem_cons, hq]
    · cases hl : lookupA segs a.id with
      | none =>
        exact absurd (Hseg a (List.mem_cons_self _ _)) (by simp [hl])
      | some seg =>
        rw [removalLoop_cons_del uid np a rest segs seg ha hl]
        obtain ⟨ih0, ih1, ih2, ih3⟩ := ih
          (insertA segs a.id
            { seg with users := setDelete seg.users uid })
          (fun a' ha' => lookupA_insertA_isSome _ _ _ _
            (Hseg a' (List.mem_cons_of_mem _ ha')))
        refine ⟨ih0, ?_, ?_, ?_⟩
        · intro q
          rw [ih1 q]
          by_cases hq : q = a.id
          · subst hq
            simp [ha]
          · simp [List.mem_cons, hq]
        · intro q
          rw [ih2 q]
          by_cases hq : q = a.id
          · subst hq
            rw [memSeg_insertA_same]
            simp [mem_setDelete, ha]
          · rw [memSeg_insertA_other _ _ _ _ _ hq]
            simp [List.mem_cons, hq]
        · intro q v hv
          rw [ih3 q v hv]
          by_cases hq : q = a.id
          · subst hq
            rw [memSeg_insertA_same, mem_setDelete,
              memSeg_of_lookup segs a.id v seg hl]
            simp [hv]
          · rw [memSeg_insertA_other _ _ _ _ _ hq]

theorem lookupA_mem {α : Type} :
    ∀ (l : List (String × α)) (k : String) (v : α),
      lookupA l k = some v → (k, v) ∈ l := by
  intro l
  induction l with
  | nil => intro k v h; exact absurd h (by simp [lookupA])
  | cons kv t ih =>
    intro k v h
    rcases kv with ⟨k', w⟩
    by_cases hk : k' = k
    · subst hk
      simp [lookupA] at h
      subst h
      exact List.mem_cons_self _ _
    · simp only [lookupA, if_neg hk] at h
      exact List.mem_cons_of_mem _ (ih k v h)

theorem insertA_insertA {α : Type} :
    ∀ (l : List (String × α)) (k : String) (v w : α),
      insertA (insertA l k v) k w = insertA l k w := by
  intro l
  induction l with
  | nil => intro k v w; simp [insertA]
  | cons kv t ih =>
    intro k v w
    rcases kv with ⟨k', x⟩
    by_cases hk : k' = k
    · subst hk
      simp [insertA]
    · simp [insertA, hk, ih]

theorem mem_insertA {α : Type} :
    ∀ (l : List (String × α)) (k : String) (v : α) (kv : String × α),
      (l.map Prod.fst).Nodup →
      (kv ∈ insertA l k v ↔
        kv = (k, v) ∨ (kv ∈ l ∧ kv.1 ≠ k)) := by
  intro l
  induction l with
  | nil =>
    intro k v kv _
    simp [insertA]
  | cons hd t ih =>
    intro k v kv hnd
    rcases hd with ⟨k', w⟩
    simp only [List.map_cons, List.nodup_cons] at hnd
    obtain ⟨hk'nt, hndt⟩ := hnd
    by_cases hk : k' = k
    · subst hk
      rw [show insertA ((k', w) :: t) k' v = (k', v) :: t from by
        simp [insertA]]
      simp only [List.mem_cons]
      constructor
      · rintro (rfl | h)
        · exact Or.inl rfl
        · refine Or.inr ⟨Or.inr h, ?_⟩
          intro hkv
          exact hk'nt (hkv ▸ List.mem_map_of_mem Prod.fst h)
      · rintro (rfl | ⟨hmem, hne⟩)
        · exact Or.inl rfl
        · rcases hmem with rfl | h
          · exact absurd rfl hne
          · exact Or.inr h
    · rw [show insertA ((k', w) :: t) k v = (k', w) :: insertA t k v from
        by simp [insertA, hk]]
      rw [List.mem_cons, ih k v kv hndt]
      simp only [List.mem_cons]
      constructor
      · rintro (rfl | (rfl | ⟨hmem, hne⟩))
        · exact Or.inr ⟨Or.inl rfl, hk⟩
        · exact Or.inl rfl
        · exact Or.inr ⟨Or.inr hmem, hne⟩
      · rintro (rfl | ⟨hmem2, hne⟩)
        · exact Or.inr (Or.inl rfl)
        · rcases hmem2 with rfl | h
          · exact Or.inl rfl
          · exact Or.inr (Or.inr ⟨h, hne⟩)

theorem memSeg_map_keys (G : String × Segment → String × Segment)
    (hG1 : ∀ kv, (G kv).1 = kv.1)
    (hG2 : ∀ kv, (G kv).2.users = kv.2.users) :
    ∀ (l : List (String × Segment)) (q v : String),
      memSeg (l.map G) q v ↔ memSeg l q v := by
  intro l
  induction l with
  | nil => intro q v; exact Iff.rfl
  | cons kv t ih =>
    intro q v
    by_cases h : kv.1 = q
    · simp [memSeg, lookupA, hG1, hG2, h]
    · simpa [memSeg, lookupA, hG1, h] using ih q v

theorem memSeg_updatePersonaMetrics (an : PAnalyzer) (now : Int)
    (q v : String) :
    memSeg (updatePersonaMetrics an now).segments q v ↔
      memSeg an.segments q v := by
  unfold updatePersonaMetrics
  exact memSeg_map_keys
    (fun kv =>
      let seg := kv.2
      let users := seg.users.filterMap (lookupA an.users)
      let m := seg.metrics
      let m := { m with
        totalUsers := users.length,
        activeUsers :=
          (users.filter fun u => now - u.lastSeen < 86400000).length }
      let m :=
        if users.length > 0 then
          { m with
              avgSessionDuration :=
                (users.foldl (fun sum u => sum +
                  (u.metrics.totalDuration : Rat) /
                    (u.metrics.totalSessions : Rat)) 0) /
                  (users.length : Rat),
              avgPageViews :=
                (users.foldl (fun sum u => sum +
                  (u.metrics.totalPageViews : Rat) /
                    (u.metrics.totalSessions : Rat)) 0) /
                  (users.length : Rat),
              conversionRate :=
                ((users.filter fun u =>
                  u.metrics.conversionEvents > 0).length : Rat) /
                  (users.length : Rat) }
        else m
      (kv.1, { seg with metrics := m }))
    (fun kv => rfl) (fun kv => rfl) an.segments q v

theorem updatePageMetrics_personas (u : UserProfile) (e : PEvent) :
    (updatePageMetrics u e).personas = u.personas := by
  unfold updatePageMetrics
  rcases e.url with _ | url <;> rcases e.referrer with _ | r <;>
    simp <;> split_ifs <;> simp

theorem updateDeviceMetrics_personas (u : UserProfile) (ua : String) :
    (updateDeviceMetrics u ua).personas = u.personas := by
  unfold updateDeviceMetrics
  simp

theorem startNewSession_personas (u : UserProfile) (e : PEvent) :
    (startNewSession u e).personas = u.personas := by
  unfold startNewSession
  rcases u.currentSession with _ | cs <;> simp

theorem applyEventToSession_personas (u : UserProfile) (s : PSession)
    (e : PEvent) :
    (applyEventToSession u s e).personas = u.personas := by
  unfold applyEventToSession
  rcases e.device with _ | ua <;>
    split_ifs <;>
    simp [updatePageMetrics_personas, updateDeviceMetrics_personas]

theorem updateUserProfile_personas_id (user : UserProfile)
    (event : PEvent) :
    (updateUserProfile user event).personas = user.personas ∧
    (updateUserProfile user event).id = user.id := by
  rcases hcs : user.currentSession with _ | cs
  · rw [updateUserProfile_eq_fresh user event hcs]
    obtain ⟨-, -, -, hid⟩ := startNewSession_proj
      { user with lastSeen := event.timestamp } event
    obtain ⟨-, -, -, -, hid2⟩ := applyEventToSession_proj
      (startNewSession { user with lastSeen := event.timestamp } event)
      { startTime := event.timestamp, lastActivity := event.timestamp,
        duration := 0, pageViews := 0, clicks := 0, conversions := 0,
        formSubmissions := 0, events := [], entryPage := event.url,
        device := event.device, referrer := event.referrer } event
    refine ⟨?_, by rw [hid2, hid]⟩
    rw [applyEventToSession_personas, startNewSession_personas]
  · by_cases hnew : isNewSession cs event = true
    · rw [updateUserProfile_eq_timeout user event cs hcs hnew]
      obtain ⟨-, -, -, hid⟩ := startNewSession_proj
        { user with lastSeen := event.timestamp } event
      obtain ⟨-, -, -, -, hid2⟩ := applyEventToSession_proj
        (startNewSession { user with lastSeen := event.timestamp } event)
        { startTime := event.timestamp, lastActivity := event.timestamp,
          duration := 0, pageViews := 0, clicks := 0, conversions := 0,
          formSubmissions := 0, events := [], entryPage := event.url,
          device := event.device, referrer := event.referrer } event
      refine ⟨?_, by rw [hid2, hid]⟩
      rw [applyEventToSession_personas, startNewSession_personas]
    · rw [updateUserProfile_eq_keep user event cs hcs hnew]
      obtain ⟨-, -, -, -, hid2⟩ := applyEventToSession_proj
        { user with lastSeen := event.timestamp } cs event
      exact ⟨by rw [applyEventToSession_personas], by rw [hid2]⟩

theorem analyzeUserPersona_agree (an : PAnalyzer) (user : UserProfile)
    (now : Int)
    (Hseg : ∀ p ∈ an.personas, (lookupA an.segments p.id).isSome = true)
    (Hp : ∀ a ∈ user.personas, a.id ∈ an.personas.map Persona.id) :
    (analyzeUserPersona an user.id user now).1.personas = an.personas ∧
    (analyzeUserPersona an user.id user now).1.users =
      insertA an.users user.id
        (analyzeUserPersona an user.id user now).2.1 ∧
    (analyzeUserPersona an user.id user now).2.1.id = user.id ∧
    (∀ q : String,
      (q ∈ user.personas.map PersonaAssignment.id ↔
        memSeg an.segments q user.id) →
      (q ∈ (analyzeUserPersona an user.id user now).2.1.personas.map
          PersonaAssignment.id ↔
        memSeg (analyzeUserPersona an user.id user now).1.segments q
          user.id)) ∧
    (∀ q v, v ≠ user.id →
      (memSeg (analyzeUserPersona an user.id user now).1.segments q v ↔
        memSeg an.segments q v)) := by
  obtain ⟨C1, C2, C3, C4, C5, C6⟩ := matchLoop_effects
    (user.personas.map (·.id)) now an.personas user an.segments []
    Hseg (fun q hq => hq)
  obtain ⟨-, -, -, hid1⟩ := matchLoop_user_fields
    (user.personas.map (·.id)) now an.personas user an.segments []
  unfold analyzeUserPersona
  rcases hml : matchLoop (user.personas.map (·.id)) now an.personas user
    an.segments [] with ⟨u1, segs1, np1, err1⟩
  rw [hml] at C1 C2 C3 C4 C5 C6 hid1
  simp only at C1 C2 C3 C4 C5 C6 hid1
  cases err1 with
  | some e =>
    simp only [hml]
    exact ⟨by trivial, by trivial, hid1, C1, C2⟩
  | none =>
    have HsegR : ∀ a ∈ u1.personas,
        (lookupA segs1 a.id).isSome = true := by
      intro a ha
      have hq : a.id ∈ u1.personas.map PersonaAssignment.id :=
        List.mem_map_of_mem _ ha
      have hq2 : a.id ∈ an.personas.map Persona.id := by
        rcases C5 a.id hq with h | h
        · rcases List.mem_map.mp h with ⟨a0, ha0, hida⟩
          exact hida ▸ Hp a0 ha0
        · exact h
      rcases List.mem_map.mp hq2 with ⟨p, hp, hpid⟩
      exact hpid ▸ C3 p.id (Hseg p hp)
    obtain ⟨R0, R1, R2, R3⟩ := removalLoop_effects u1.id np1
      u1.personas segs1 HsegR
    rcases hrl : removalLoop u1.id np1 u1.personas segs1 with
      ⟨kept, segs2, err2⟩
    rw [hrl] at R0 R1 R2 R3
    simp only at R0 R1 R2 R3
    subst R0
    simp only [hml, hrl]
    refine ⟨by trivial, by trivial, hid1, ?_, ?_⟩
    · intro q hpre
      rw [memSeg_updatePersonaMetrics]
      show q ∈ kept.map PersonaAssignment.id ↔ memSeg segs2 q user.id
      rw [← hid1, R1 q, R2 q]
      have hC : q ∈ u1.personas.map PersonaAssignment.id ↔
          memSeg segs1 q u1.id := by
        rw [hid1]
        exact C1 q hpre
      constructor
      · rintro ⟨h1, h2⟩
        exact ⟨hC.mp h1, Or.inl h2⟩
      · rintro ⟨h1, h2⟩
        have h3 : q ∈ u1.personas.map PersonaAssignment.id := hC.mpr h1
        rcases h2 with h2 | h2
        · exact ⟨h3, h2⟩
        · exact absurd h3 h2
    · intro q v hv
      rw [memSeg_updatePersonaMetrics]
      show memSeg segs2 q v ↔ memSeg an.segments q v
      have hv1 : v ≠ u1.id := by
        rw [hid1]
        exact hv
      rw [R3 q v hv1]
      exact C2 q v hv

/-- C9: the profile/segment agreement invariant of `PersonaAnalyzer`.
In a wellformed analyzer state (`PWf`: every defined persona has a
segment, profile-map keys are the profiles' ids and are unique, profile
persona ids are defined persona ids, and segment members are stored
users) in which every stored profile's persona list agrees with the
segment membership sets (`PInv`), any `addUserEvent` call — including
runs that abort in a thrown rule error — leaves a state in which, for
every stored profile and every defined persona, the persona's id is on
the profile's list exactly when the profile's id is in that persona's
segment set. -/
theorem persona_segment_agreement (an : PAnalyzer) (userId : String)
    (event : PEvent) (now : Int) (hwf : PWf an) (hinv : PInv an) :
    PInv (addUserEvent an userId event now).1 := by
  obtain ⟨W1, W2, W3, W4, W5⟩ := hwf
  have H : ∀ user0 : UserProfile,
      user0.id = userId →
      (∀ a ∈ user0.personas, a.id ∈ an.personas.map Persona.id) →
      (∀ p ∈ an.personas,
        (p.id ∈ user0.personas.map PersonaAssignment.id ↔
          memSeg an.segments p.id userId)) →
      PInv (analyzeUserPersona
        { an with
            users := insertA an.users userId
              (updateUserProfile user0 event) } userId
        (updateUserProfile user0 event) now).1 := by
    intro user0 hid0 HpU hpre
    obtain ⟨hper1, hid1a⟩ := updateUserProfile_personas_id user0 event
    have hkey : (updateUserProfile user0 event).id = userId := by
      rw [hid1a, hid0]
    obtain ⟨A1, A2, A3, A4, A5⟩ := analyzeUserPersona_agree
      { an with
          users := insertA an.users userId
            (updateUserProfile user0 event) }
      (updateUserProfile user0 event) now W1
      (fun a ha => HpU a (hper1 ▸ ha))
    rw [hkey] at A1 A2 A3 A4 A5
    rcases hA : analyzeUserPersona
        { an with
            users := insertA an.users userId
              (updateUserProfile user0 event) } userId
        (updateUserProfile user0 event) now with ⟨anf, uf, errf⟩
    rw [hA] at A1 A2 A3 A4 A5
    simp only at A1 A2 A3 A4 A5
    rw [insertA_insertA] at A2
    intro kv hkv p hp
    rw [A1] at hp
    rw [A2] at hkv
    rcases (mem_insertA an.users userId uf kv W3).mp hkv with
      rfl | ⟨hmem, hne⟩
    · show p.id ∈ uf.personas.map PersonaAssignment.id ↔
        memSeg anf.segments p.id uf.id
      rw [A3]
      exact A4 p.id (by rw [hper1]; exact hpre p hp)
    · have hvne : kv.2.id ≠ userId := by
        rw [W2 kv hmem]
        exact hne
      rw [A5 p.id kv.2.id hvne]
      exact hinv kv hmem p hp
  unfold addUserEvent
  rcases hu : lookupA an.users userId with _ | u
  · refine H (createUserProfile userId now) rfl
      (by simp [createUserProfile]) ?_
    intro p hp
    constructor
    · intro h
      exact absurd h (by simp [createUserProfile])
    · intro h
      exfalso
      unfold memSeg at h
      rcases hl : lookupA an.segments p.id with _ | seg
      · rw [hl] at h
        simp at h
      · rw [hl] at h
        simp at h
        have hmem := lookupA_mem an.segments p.id seg hl
        have hsome := W5 (p.id, seg) hmem userId h
        rw [hu] at hsome
        simp at hsome
  · have hmem := lookupA_mem an.users userId u hu
    refine H u (W2 (userId, u) hmem) (W4 (userId, u) hmem) ?_
    intro p hp
    have hiff := hinv (userId, u) hmem p hp
    have hid : u.id = userId := W2 (userId, u) hmem
    simp only at hiff
    rwa [hid] at hiff

theorem persona_segment_agreement_witness :
    PInv (addUserEvent defaultPAnalyzer "u9" cEventC10 100).1 :=
  persona_segment_agreement defaultPAnalyzer "u9" cEventC10 100
    (by unfold PWf; decide) (by unfold PInv memSeg; decide)
